import Mathlib

/-!
# pmmnm-bridge: the API client (`api.go`)

A shallow embedding of `APIClient.SendSensorData` and of the parts of the Go
standard library it calls (`encoding/json`, `net/http`, `fmt.Errorf`) and of the
`logrus` entries it submits, followed by the properties of the forwarding
client that the specification states.

Conventions of the embedding

* Go `string` / `[]byte` values are Lean `String`s (sequences of Unicode scalar
  values); `string(respBody)` is therefore the identity.
* `float64` is its IEEE 754 binary64 bit pattern, `int64` / `int` are `Int`.
* A call returns an `Outcome`: the `error` result (`none` is Go's `nil`), the
  log entries handed to the logger in order, and the requests handed to
  `httpClient.Do` in order.
* What the network and the URL parser answer is supplied by an `Env`.
-/

namespace Bridge

/-! ## Go error values -/

/-- A Go `error`: either a plain message (`errors.New`, `fmt.Errorf` without a
`%w` verb, or an error made by a library) or `fmt.Errorf(text ++ "%w", cause)`. -/
inductive GoError where
  | plain (text : String)
  | wrap (text : String) (cause : GoError)
  deriving DecidableEq

namespace GoError

/-- The method `Error()`: the message of the error. -/
def Error : GoError → String
  | plain t => t
  | wrap t c => t ++ c.Error

/-- The method `Unwrap()`: the error wrapped with `%w`, if any. -/
def Unwrap : GoError → Option GoError
  | plain _ => none
  | wrap _ c => some c

end GoError

/-! ## float64 -/

/-- A `float64`, as its IEEE 754 binary64 bit pattern (read modulo `2^64`). -/
structure Float64 where
  bits : Nat
  deriving DecidableEq

namespace Float64

/-- The biased exponent field, bits 52..62. -/
def exponent (f : Float64) : Nat := (f.bits % 2 ^ 64) / 2 ^ 52 % 2 ^ 11

/-- The fraction field, bits 0..51. -/
def mantissa (f : Float64) : Nat := f.bits % 2 ^ 52

/-- The sign bit, bit 63. -/
def signBit (f : Float64) : Nat := (f.bits % 2 ^ 64) / 2 ^ 63

/-- Go `math.IsNaN`. -/
def IsNaN (f : Float64) : Bool := f.exponent == 2047 && f.mantissa != 0

/-- Go `math.IsInf(f, 0)`: either infinity. -/
def IsInf (f : Float64) : Bool := f.exponent == 2047 && f.mantissa == 0

/-- A finite value: neither NaN nor an infinity. -/
def IsFinite (f : Float64) : Bool := !(f.IsInf || f.IsNaN)

/-- Go `strconv.FormatFloat(f, 'g', -1, 64)` on the non-finite values, the only
ones for which `encoding/json` calls it while building an error. -/
def formatNonFinite (f : Float64) : String :=
  if f.IsNaN then "NaN" else if f.signBit == 0 then "+Inf" else "-Inf"

end Float64

/-! ## encoding/json: the scanner

`json.Unmarshal` first checks the whole input against the JSON grammar
(`checkValid`) and only then decodes.  `parseJSON` does both steps of the
lexical work at once: it accepts exactly the texts the scanner accepts and
returns the value with its strings unquoted. -/

/-- A JSON value.  A number keeps its literal text, which is what the decoder
hands to `strconv`; an object keeps its members in input order, duplicates
included, which is the order the decoder visits them in. -/
inductive JValue where
  | null
  | bool (b : Bool)
  | number (lit : String)
  | string (s : String)
  | array (items : List JValue)
  | object (members : List (String × JValue))

/-- The scanner's `isSpace`. -/
def isSpace (c : Char) : Bool :=
  [' ', '\t', '\r', '\n'].contains c

/-- Drop leading JSON white space. -/
def skipSpace : List Char → List Char
  | [] => []
  | c :: cs => if isSpace c then skipSpace cs else c :: cs

/-- A decimal digit. -/
def isDigit (c : Char) : Bool := '0'.toNat ≤ c.toNat && c.toNat ≤ '9'.toNat

/-- The longest run of decimal digits at the front, and what follows it. -/
def spanDigits : List Char → List Char × List Char
  | [] => ([], [])
  | c :: cs =>
    if isDigit c then ((spanDigits cs).1.cons c, (spanDigits cs).2) else ([], c :: cs)

/-- Value of a hexadecimal digit (`0-9`, `a-f`, `A-F`). -/
def hexValue (c : Char) : Option Nat :=
  let n := c.toNat
  if 48 ≤ n ∧ n ≤ 57 then some (n - 48)
  else if 97 ≤ n ∧ n ≤ 102 then some (n - 87)
  else if 65 ≤ n ∧ n ≤ 70 then some (n - 55)
  else none

/-- The decoder's `getu4`: the code unit of a leading `\uXXXX`, with the rest. -/
def getu4 : List Char → Option (Nat × List Char)
  | '\\' :: 'u' :: h3 :: h2 :: h1 :: h0 :: rest =>
    match hexValue h3, hexValue h2, hexValue h1, hexValue h0 with
    | some x3, some x2, some x1, some x0 => some (x3 * 4096 + x2 * 256 + x1 * 16 + x0, rest)
    | _, _, _, _ => none
  | _ => none

/-- A UTF-16 surrogate code unit. -/
def isSurrogate (u : Nat) : Bool := 0xD800 ≤ u && u < 0xE000

/-- Go `utf16.DecodeRune`: the code point of a surrogate pair, `none` where Go
returns the replacement character. -/
def decodeSurrogates (hi lo : Nat) : Option Nat :=
  if 0xD800 ≤ hi ∧ hi < 0xDC00 ∧ 0xDC00 ≤ lo ∧ lo < 0xE000 then
    some ((hi - 0xD800) * 1024 + (lo - 0xDC00) + 0x10000)
  else none

/-- The single-character escapes of a JSON string: the character after the
backslash, and the character it stands for. -/
def escapeTable : List (Char × Char) :=
  [('"', '"'), ('\\', '\\'), ('/', '/'), ('b', Char.ofNat 8), ('f', Char.ofNat 12),
   ('n', '\n'), ('r', '\r'), ('t', '\t')]

/-- The character a single-character escape stands for. -/
def simpleEscape (c : Char) : Option Char := escapeTable.lookup c

/-- Scan a string body (the opening quote already consumed) up to its closing
quote, unquoting as the decoder's `unquote` does: the escapes are replaced, a
`\u` surrogate pair becomes one code point and a lone surrogate becomes
U+FFFD.  A control character below U+0020 or a bad escape is a syntax error.
`acc` holds the characters read so far, last first. -/
def scanString : Nat → List Char → List Char → Option (String × List Char)
  | 0, _, _ => none
  | _ + 1, _, [] => none
  | fuel + 1, acc, c :: cs =>
    if c == '"' then some (String.mk acc.reverse, cs)
    else if c == '\\' then
      match cs with
      | [] => none
      | 'u' :: _ =>
        match getu4 (c :: cs) with
        | none => none
        | some (u, rest) =>
          if isSurrogate u then
            match getu4 rest with
            | none => scanString fuel (Char.ofNat 0xFFFD :: acc) rest
            | some (u2, rest2) =>
              match decodeSurrogates u u2 with
              | some r => scanString fuel (Char.ofNat r :: acc) rest2
              | none => scanString fuel (Char.ofNat 0xFFFD :: acc) rest
          else scanString fuel (Char.ofNat u :: acc) rest
      | e :: rest =>
        match simpleEscape e with
        | some r => scanString fuel (r :: acc) rest
        | none => none
    else if c.toNat < 32 then none
    else scanString fuel (c :: acc) cs

/-- An optional sign at the front (`+` or `-`), and what follows it. -/
def spanSign : List Char → List Char × List Char
  | [] => ([], [])
  | s :: rest => if s == '+' || s == '-' then ([s], rest) else ([], s :: rest)

/-- An optional minus sign at the front, and what follows it. -/
def spanMinus : List Char → List Char × List Char
  | [] => ([], [])
  | s :: rest => if s == '-' then ([s], rest) else ([], s :: rest)

/-- The optional exponent part of a number; `lit` is the literal so far. -/
def scanExponent (lit : List Char) : List Char → Option (List Char × List Char)
  | [] => some (lit, [])
  | e :: rest =>
    if e == 'e' || e == 'E' then
      if (spanDigits (spanSign rest).2).1.isEmpty then none
      else some (lit ++ e :: (spanSign rest).1 ++ (spanDigits (spanSign rest).2).1,
        (spanDigits (spanSign rest).2).2)
    else some (lit, e :: rest)

/-- The optional fraction part of a number, then the exponent part. -/
def scanFraction (lit : List Char) : List Char → Option (List Char × List Char)
  | [] => scanExponent lit []
  | p :: rest =>
    if p == '.' then
      if (spanDigits rest).1.isEmpty then none
      else scanExponent (lit ++ p :: (spanDigits rest).1) (spanDigits rest).2
    else scanExponent lit (p :: rest)

/-- The integer part of a number, after the sign `sign`: `0`, or a digit from
`1` to `9` followed by digits; then the fraction and the exponent. -/
def scanInteger (sign : List Char) : List Char → Option (List Char × List Char)
  | [] => none
  | d :: rest =>
    if d == '0' then scanFraction (sign ++ [d]) rest
    else if isDigit d then scanFraction (sign ++ d :: (spanDigits rest).1) (spanDigits rest).2
    else none

/-- A number literal: `-`? (`0` | `1-9` digits) fraction? exponent?. -/
def scanNumber (cs : List Char) : Option (String × List Char) :=
  (scanInteger (spanMinus cs).1 (spanMinus cs).2).map fun r => (String.mk r.1, r.2)

/-- The scanner's `maxNestingDepth`. -/
def maxNestingDepth : Nat := 10000

mutual

/-- One JSON value at the front of the input (white space skipped first), at
nesting depth `depth`, with the rest of the input. -/
def scanValue : Nat → Nat → List Char → Option (JValue × List Char)
  | 0, _, _ => none
  | fuel + 1, depth, cs =>
    match skipSpace cs with
    | [] => none
    | 'n' :: 'u' :: 'l' :: 'l' :: rest => some (JValue.null, rest)
    | 't' :: 'r' :: 'u' :: 'e' :: rest => some (JValue.bool true, rest)
    | 'f' :: 'a' :: 'l' :: 's' :: 'e' :: rest => some (JValue.bool false, rest)
    | '"' :: rest =>
      (scanString (rest.length + 1) [] rest).map fun r => (JValue.string r.1, r.2)
    | '[' :: rest =>
      if depth + 1 > maxNestingDepth then none
      else
        match skipSpace rest with
        | ']' :: rest2 => some (JValue.array [], rest2)
        | _ => (scanItems fuel (depth + 1) rest).map fun r => (JValue.array r.1, r.2)
    | '{' :: rest =>
      if depth + 1 > maxNestingDepth then none
      else
        match skipSpace rest with
        | '}' :: rest2 => some (JValue.object [], rest2)
        | _ => (scanMembers fuel (depth + 1) rest).map fun r => (JValue.object r.1, r.2)
    | c :: rest => (scanNumber (c :: rest)).map fun r => (JValue.number r.1, r.2)

/-- The items of a non-empty array, up to and including the closing bracket. -/
def scanItems : Nat → Nat → List Char → Option (List JValue × List Char)
  | 0, _, _ => none
  | fuel + 1, depth, cs =>
    match scanValue fuel depth cs with
    | none => none
    | some (v, rest) =>
      match skipSpace rest with
      | ',' :: rest2 => (scanItems fuel depth rest2).map fun r => (v :: r.1, r.2)
      | ']' :: rest2 => some ([v], rest2)
      | _ => none

/-- The members of a non-empty object, up to and including the closing brace. -/
def scanMembers : Nat → Nat → List Char → Option (List (String × JValue) × List Char)
  | 0, _, _ => none
  | fuel + 1, depth, cs =>
    match skipSpace cs with
    | '"' :: rest =>
      match scanString (rest.length + 1) [] rest with
      | none => none
      | some (key, rest2) =>
        match skipSpace rest2 with
        | ':' :: rest3 =>
          match scanValue fuel depth rest3 with
          | none => none
          | some (v, rest4) =>
            match skipSpace rest4 with
            | ',' :: rest5 => (scanMembers fuel depth rest5).map fun r => ((key, v) :: r.1, r.2)
            | '}' :: rest5 => some ([(key, v)], rest5)
            | _ => none
        | _ => none
    | _ => none

end

/-- The whole input as one JSON value, surrounded by optional white space;
`none` is the `*json.SyntaxError` of `checkValid`.  The fuel bounds the
nesting of the calls of the three scanning functions; the length of the input
plus one is enough of it (`scanValue_fuel_enough`), so that an input is
rejected only when it is not JSON (`parseJSON_eq_none_iff`). -/
def parseJSON (data : String) : Option JValue :=
  match scanValue (data.length + 1) 0 data.data with
  | some (v, rest) => if (skipSpace rest).isEmpty then some v else none
  | none => none

/-! ## encoding/json: decoding into the response structs

The decoder walks the members of an object in input order.  A member whose key
names no field is skipped; a value of the wrong JSON type records an
`UnmarshalTypeError` (only the first one is kept) and decoding goes on; JSON
`null` leaves a string, bool, int or struct untouched.  `Unmarshal` returns the
recorded error, if any, once the whole value has been walked. -/

/-- The errors `json.Unmarshal` returns for these targets: `*json.SyntaxError`,
or `*json.UnmarshalTypeError` with its `Value` text, the description of the
JSON value that did not fit. -/
inductive UnmarshalError where
  | SyntaxError
  | UnmarshalTypeError (Value : String)
  deriving DecidableEq

/-- The decoder's `saveError`: the first error recorded is the one kept. -/
def saveError (saved new : Option UnmarshalError) : Option UnmarshalError :=
  match saved with
  | some e => some e
  | none => new

/-- The decoder's `foldRune` on the runes whose fold orbit holds an ASCII
letter (the letters themselves, U+017F and U+212A); other runes never fold to
an ASCII letter and are left alone, which does not change whether a folded key
equals the folded name of a field with an ASCII name. -/
def foldRune (c : Char) : Char :=
  if 97 ≤ c.toNat ∧ c.toNat ≤ 122 then Char.ofNat (c.toNat - 32)
  else if c.toNat = 0x17F then 'S'
  else if c.toNat = 0x212A then 'K'
  else c

/-- The decoder's `foldName`. -/
def foldName (s : String) : List Char := s.data.map foldRune

/-- The field an object key selects among the JSON names of a struct: an exact
match is preferred, a case-insensitive one is accepted. -/
def fieldFor (names : List String) (key : String) : Option String :=
  match names.find? (fun n => n == key) with
  | some n => some n
  | none => names.find? (fun n => foldName n == foldName key)

/-- The `Value` text of the type error for a JSON value that is not a literal
of the expected kind. -/
def describe : JValue → String
  | JValue.null => "null"
  | JValue.bool _ => "bool"
  | JValue.number _ => "number"
  | JValue.string _ => "string"
  | JValue.array _ => "array"
  | JValue.object _ => "object"

/-- Store a JSON value into a Go `string`. -/
def storeString (old : String) : JValue → String × Option UnmarshalError
  | JValue.string s => (s, none)
  | JValue.null => (old, none)
  | v => (old, some (UnmarshalError.UnmarshalTypeError (describe v)))

/-- Store a JSON value into a Go `bool`. -/
def storeBool (old : Bool) : JValue → Bool × Option UnmarshalError
  | JValue.bool b => (b, none)
  | JValue.null => (old, none)
  | v => (old, some (UnmarshalError.UnmarshalTypeError (describe v)))

/-- Go `strconv.ParseInt(lit, 10, 64)` on a JSON number literal: it succeeds
on an optional minus sign followed by digits only, within the `int64` range. -/
def parseInt64 (lit : String) : Option Int :=
  let signed : Bool × List Char :=
    match lit.data with
    | '-' :: rest => (true, rest)
    | cs => (false, cs)
  if signed.2.isEmpty || !(signed.2.all isDigit) then none
  else
    let n : Nat := signed.2.foldl (fun acc c => acc * 10 + (c.toNat - 48)) 0
    let i : Int := if signed.1 then -(n : Int) else (n : Int)
    if -(2 : Int) ^ 63 ≤ i ∧ i < (2 : Int) ^ 63 then some i else none

/-- Store a JSON value into a Go `int`. -/
def storeInt (old : Int) : JValue → Int × Option UnmarshalError
  | JValue.number lit =>
    match parseInt64 lit with
    | some i => (i, none)
    | none => (old, some (UnmarshalError.UnmarshalTypeError ("number " ++ lit)))
  | JValue.null => (old, none)
  | v => (old, some (UnmarshalError.UnmarshalTypeError (describe v)))

/-- Store the items of a JSON array into the slots of a `[]string`: item `i`
is stored into slot `i` of the slice the field held before, a fresh slot being
the empty string. -/
def storeItems : List String → List JValue → List String × Option UnmarshalError
  | _, [] => ([], none)
  | old, v :: vs =>
    let head := storeString (old.headD "") v
    let tail := storeItems old.tail vs
    (head.1 :: tail.1, saveError head.2 tail.2)

/-- Store a JSON value into a Go `[]string`; `null` sets the slice to `nil`.
(When the same key has already been decoded twice, a slot that an earlier,
longer array filled and a later, shorter one cut off may come back with its
old content in Go; here it comes back empty.) -/
def storeStrings (old : List String) : JValue → List String × Option UnmarshalError
  | JValue.array items => storeItems old items
  | JValue.null => ([], none)
  | v => (old, some (UnmarshalError.UnmarshalTypeError (describe v)))

/-- The anonymous struct of `SensorDataResponse.Automation`. -/
structure Automation where
  RulesChecked : Int
  RulesTriggered : Int
  ZonesCreated : List String
  Message : String
  deriving DecidableEq

/-- The API success response, `SensorDataResponse`. -/
structure SensorDataResponse where
  Success : Bool
  DataID : String
  ThresholdExceeded : Bool
  Automation : Automation
  deriving DecidableEq

/-- The API error response, `ErrorResponse`. -/
structure ErrorResponse where
  Error : String
  Warning : String
  deriving DecidableEq

/-- The JSON names of the fields of `SensorDataResponse.Automation`. -/
def automationFields : List String :=
  ["rulesChecked", "rulesTriggered", "zonesCreated", "message"]

/-- The JSON names of the fields of `SensorDataResponse`. -/
def sensorDataResponseFields : List String :=
  ["success", "dataId", "thresholdExceeded", "automation"]

/-- The JSON names of the fields of `ErrorResponse`. -/
def errorResponseFields : List String := ["error", "warning"]

/-- A struct being decoded, with the error recorded so far. -/
structure Decoding (α : Type) where
  val : α
  saved : Option UnmarshalError

/-- One member of the `automation` object. -/
def decodeAutomationMember (st : Decoding Automation) (m : String × JValue) :
    Decoding Automation :=
  let a := st.val
  match fieldFor automationFields m.1 with
  | some "rulesChecked" =>
    let r := storeInt a.RulesChecked m.2
    ⟨{ a with RulesChecked := r.1 }, saveError st.saved r.2⟩
  | some "rulesTriggered" =>
    let r := storeInt a.RulesTriggered m.2
    ⟨{ a with RulesTriggered := r.1 }, saveError st.saved r.2⟩
  | some "zonesCreated" =>
    let r := storeStrings a.ZonesCreated m.2
    ⟨{ a with ZonesCreated := r.1 }, saveError st.saved r.2⟩
  | some "message" =>
    let r := storeString a.Message m.2
    ⟨{ a with Message := r.1 }, saveError st.saved r.2⟩
  | _ => st

/-- Store a JSON value into the `Automation` struct. -/
def storeAutomation (old : Automation) : JValue → Automation × Option UnmarshalError
  | JValue.object members =>
    let st := members.foldl decodeAutomationMember ⟨old, none⟩
    (st.val, st.saved)
  | JValue.null => (old, none)
  | v => (old, some (UnmarshalError.UnmarshalTypeError (describe v)))

/-- One member of the success response object. -/
def decodeResponseMember (st : Decoding SensorDataResponse) (m : String × JValue) :
    Decoding SensorDataResponse :=
  let a := st.val
  match fieldFor sensorDataResponseFields m.1 with
  | some "success" =>
    let r := storeBool a.Success m.2
    ⟨{ a with Success := r.1 }, saveError st.saved r.2⟩
  | some "dataId" =>
    let r := storeString a.DataID m.2
    ⟨{ a with DataID := r.1 }, saveError st.saved r.2⟩
  | some "thresholdExceeded" =>
    let r := storeBool a.ThresholdExceeded m.2
    ⟨{ a with ThresholdExceeded := r.1 }, saveError st.saved r.2⟩
  | some "automation" =>
    let r := storeAutomation a.Automation m.2
    ⟨{ a with Automation := r.1 }, saveError st.saved r.2⟩
  | _ => st

/-- One member of the error response object. -/
def decodeErrorMember (st : Decoding ErrorResponse) (m : String × JValue) :
    Decoding ErrorResponse :=
  let a := st.val
  match fieldFor errorResponseFields m.1 with
  | some "error" =>
    let r := storeString a.Error m.2
    ⟨{ a with Error := r.1 }, saveError st.saved r.2⟩
  | some "warning" =>
    let r := storeString a.Warning m.2
    ⟨{ a with Warning := r.1 }, saveError st.saved r.2⟩
  | _ => st

/-- Decode a top-level JSON value into a struct whose zero value is `zero`. -/
def decodeStruct {α : Type} (zero : α) (step : Decoding α → String × JValue → Decoding α) :
    JValue → Except UnmarshalError α
  | JValue.object members =>
    let st := members.foldl step ⟨zero, none⟩
    match st.saved with
    | some e => Except.error e
    | none => Except.ok st.val
  | JValue.null => Except.ok zero
  | v => Except.error (UnmarshalError.UnmarshalTypeError (describe v))

/-- Decoding `json.Unmarshal(data, &apiResp)` with `var apiResp SensorDataResponse`. -/
def UnmarshalSensorDataResponse (data : String) : Except UnmarshalError SensorDataResponse :=
  match parseJSON data with
  | none => Except.error UnmarshalError.SyntaxError
  | some v => decodeStruct ⟨false, "", false, ⟨0, 0, [], ""⟩⟩ decodeResponseMember v

/-- Decoding `json.Unmarshal(data, &errResp)` with `var errResp ErrorResponse`. -/
def UnmarshalErrorResponse (data : String) : Except UnmarshalError ErrorResponse :=
  match parseJSON data with
  | none => Except.error UnmarshalError.SyntaxError
  | some v => decodeStruct ⟨"", ""⟩ decodeErrorMember v

/-! ## encoding/json: marshalling the request -/

/-- The API request body, `SensorDataRequest`; its JSON names are `sensorId`,
`value` and `timestamp`, the last one with `omitempty`. -/
structure SensorDataRequest where
  SensorID : String
  Value : Float64
  Timestamp : Int
  deriving DecidableEq

/-- A member value of the marshalled request. -/
inductive Encoded where
  | string (s : String)
  | float (f : Float64)
  | int (i : Int)
  deriving DecidableEq

/-- Marshalling `json.Marshal(req)`: the JSON object written, as its members in
the order of the struct fields.  A float that is NaN or infinite makes the
whole call fail with `*json.UnsupportedValueError`; an `omitempty` field is
left out when it holds the zero value of its type. -/
def Marshal (req : SensorDataRequest) : Except GoError (List (String × Encoded)) :=
  if req.Value.IsInf || req.Value.IsNaN then
    Except.error (GoError.plain ("json: unsupported value: " ++ req.Value.formatNonFinite))
  else
    Except.ok
      ([("sensorId", Encoded.string req.SensorID), ("value", Encoded.float req.Value)]
        ++ (if req.Timestamp = 0 then [] else [("timestamp", Encoded.int req.Timestamp)]))

/-! ## net/http -/

/-- An `*http.Request`, as far as the client sets it. -/
structure HttpRequest where
  Method : String
  URL : String
  Header : List (String × String)
  Body : List (String × Encoded)
  deriving DecidableEq

/-- An `*http.Response`: its status code and what `io.ReadAll(resp.Body)` gives. -/
structure HttpResponse where
  StatusCode : Int
  Body : Except GoError String

/-- The surroundings of one call: the verdict of the URL parser inside
`http.NewRequest` (`none` when the URL parses) and the answer of
`httpClient.Do` to a request. -/
structure Env where
  parseURL : String → Option GoError
  Do : HttpRequest → Except GoError HttpResponse

/-- Building `http.NewRequest(method, url, body)`; the method used by the client,
`POST`, is a valid one, so only the URL can be refused.  The header starts
empty. -/
def NewRequest (env : Env) (method url : String) (body : List (String × Encoded)) :
    Except GoError HttpRequest :=
  match env.parseURL url with
  | some e => Except.error e
  | none => Except.ok ⟨method, url, [], body⟩

/-- The method `Header.Set`: replace the values of a key. -/
def HttpRequest.setHeader (r : HttpRequest) (key value : String) : HttpRequest :=
  { r with Header := (r.Header.filter fun h => h.1 != key) ++ [(key, value)] }

/-- Status `200 OK`. -/
def StatusOK : Int := 200

/-- Status `201 Created`. -/
def StatusCreated : Int := 201

/-- Status `202 Accepted`. -/
def StatusAccepted : Int := 202

/-- Status `400 Bad Request`. -/
def StatusBadRequest : Int := 400

/-! ## logrus -/

/-- The levels the client logs at. -/
inductive Level where
  | Debug
  | Info
  | Warn
  deriving DecidableEq

/-- The value of a log field. -/
inductive FieldValue where
  | string (s : String)
  | float (f : Float64)
  | bool (b : Bool)
  | int (i : Int)
  | strings (l : List String)
  | error (e : UnmarshalError)
  deriving DecidableEq

/-- A log entry handed to the logger: level, message and fields (`WithError`
sets the field `error`).  Whether the logger writes it depends on its
configured level, which is outside the client. -/
structure Entry where
  level : Level
  message : String
  fields : List (String × FieldValue)
  deriving DecidableEq

/-! ## The client -/

/-- The `APIClient`; its `httpClient` is `Env.Do` and its `logger` receives the
entries of the outcome. -/
structure APIClient where
  endpoint : String
  deriving DecidableEq

/-- What one call did: the returned `error`, the entries logged, the requests
handed to `httpClient.Do`. -/
structure Outcome where
  err : Option GoError
  logs : List Entry
  requests : List HttpRequest
  deriving DecidableEq

/-- The debug entry logged before the request is sent. -/
def sendingEntry (c : APIClient) (sensorID : String) (value : Float64) : Entry :=
  ⟨Level.Debug, "Sending request to API",
    [("endpoint", FieldValue.string c.endpoint), ("sensor_id", FieldValue.string sensorID),
     ("value", FieldValue.float value)]⟩

/-- The warning logged when a success body does not decode. -/
def parseFailureEntry (e : UnmarshalError) : Entry :=
  ⟨Level.Warn, "Failed to parse success response", [("error", FieldValue.error e)]⟩

/-- The info entry logged for a decoded success body. -/
def processedEntry (apiResp : SensorDataResponse) : Entry :=
  ⟨Level.Info, "Sensor data processed successfully",
    [("data_id", FieldValue.string apiResp.DataID),
     ("threshold_exceeded", FieldValue.bool apiResp.ThresholdExceeded),
     ("rules_triggered", FieldValue.int apiResp.Automation.RulesTriggered),
     ("zones_created", FieldValue.int apiResp.Automation.ZonesCreated.length)]⟩

/-- The warning logged when the response reports an exceeded threshold. -/
def thresholdEntry (sensorID : String) (apiResp : SensorDataResponse) : Entry :=
  ⟨Level.Warn, "Threshold exceeded - automation triggered",
    [("sensor_id", FieldValue.string sensorID),
     ("zones_created", FieldValue.strings apiResp.Automation.ZonesCreated)]⟩

/-- The warning logged for a decoded `202` body. -/
def apiWarningEntry (errResp : ErrorResponse) : Entry :=
  ⟨Level.Warn, "API warning", [("warning", FieldValue.string errResp.Warning)]⟩

/-- The `switch resp.StatusCode` statement that ends `SendSensorData`
(`api.go`, lines 100-138): the `error` it returns and the entries it logs. -/
def handleStatus (sensorID : String) (statusCode : Int) (respBody : String) :
    Option GoError × List Entry :=
  if statusCode = StatusCreated ∨ statusCode = StatusOK then
    match UnmarshalSensorDataResponse respBody with
    | Except.error err => (none, [parseFailureEntry err])
    | Except.ok apiResp =>
      if apiResp.ThresholdExceeded then
        (none, [processedEntry apiResp, thresholdEntry sensorID apiResp])
      else (none, [processedEntry apiResp])
  else if statusCode = StatusAccepted then
    match UnmarshalErrorResponse respBody with
    | Except.ok errResp => (none, [apiWarningEntry errResp])
    | Except.error _ => (none, [])
  else if statusCode = StatusBadRequest then
    match UnmarshalErrorResponse respBody with
    | Except.ok errResp => (some (GoError.plain ("bad request: " ++ errResp.Error)), [])
    | Except.error _ => (some (GoError.plain ("bad request: " ++ respBody)), [])
  else
    (some (GoError.plain
      ("unexpected status code " ++ toString statusCode ++ ": " ++ respBody)), [])

/-- The method `SendSensorData` of `APIClient`: sends sensor data to the API
endpoint (`api.go`, lines 59-139; the final `switch` is `handleStatus`). -/
def SendSensorData (env : Env) (c : APIClient) (sensorID : String) (value : Float64)
    (timestamp : Int) : Outcome :=
  let req : SensorDataRequest := ⟨sensorID, value, timestamp⟩
  match Marshal req with
  | Except.error err => ⟨some (GoError.wrap "failed to marshal request: " err), [], []⟩
  | Except.ok body =>
    match NewRequest env "POST" c.endpoint body with
    | Except.error err => ⟨some (GoError.wrap "failed to create request: " err), [], []⟩
    | Except.ok httpReq0 =>
      let httpReq := httpReq0.setHeader "Content-Type" "application/json"
      let sending := sendingEntry c sensorID value
      match env.Do httpReq with
      | Except.error err =>
        ⟨some (GoError.wrap "failed to send request: " err), [sending], [httpReq]⟩
      | Except.ok resp =>
        match resp.Body with
        | Except.error err =>
          ⟨some (GoError.wrap "failed to read response: " err), [sending], [httpReq]⟩
        | Except.ok respBody =>
          let handled := handleStatus sensorID resp.StatusCode respBody
          ⟨handled.1, sending :: handled.2, [httpReq]⟩

/-! ## Vocabulary of the statements -/

/-- The status and the body the call received, when it handed one request to
`httpClient.Do`, the round trip completed and the response body was read. -/
def received (env : Env) (c : APIClient) (sensorID : String) (value : Float64)
    (timestamp : Int) : Option (Int × String) :=
  match (SendSensorData env c sensorID value timestamp).requests with
  | [req] =>
    match env.Do req with
    | Except.ok resp =>
      match resp.Body with
      | Except.ok body => some (resp.StatusCode, body)
      | Except.error _ => none
    | Except.error _ => none
  | _ => none

/-- The call got a response: the request it handed to `httpClient.Do` came back
with status `status`, and reading the response body gave `body`. -/
def Responded (env : Env) (c : APIClient) (sensorID : String) (value : Float64)
    (timestamp : Int) (status : Int) (body : String) : Prop :=
  received env c sensorID value timestamp = some (status, body)

instance (env : Env) (c : APIClient) (sensorID : String) (value : Float64) (timestamp : Int)
    (status : Int) (body : String) :
    Decidable (Responded env c sensorID value timestamp status body) :=
  inferInstanceAs (Decidable (received env c sensorID value timestamp = some (status, body)))

/-- An environment in which every URL parses and the server answers every
request with the given status and body. -/
def replyEnv (status : Int) (body : String) : Env :=
  ⟨fun _ => none, fun _ => Except.ok ⟨status, Except.ok body⟩⟩

/-- An environment in which every URL parses and every round trip fails with
the given cause. -/
def failEnv (cause : GoError) : Env :=
  ⟨fun _ => none, fun _ => Except.error cause⟩

/-- The entries of a log at a given level. -/
def atLevel (l : Level) (logs : List Entry) : List Entry :=
  logs.filter fun e => e.level == l

/-- The float64 `42.5`. -/
def f42_5 : Float64 := ⟨0x4045400000000000⟩

/-- The float64 `+Inf`. -/
def fPosInf : Float64 := ⟨0x7FF0000000000000⟩

/-- The request lines 60-78 of `api.go` build when marshalling and
`http.NewRequest` succeed. -/
def builtRequest (c : APIClient) (sensorID : String) (value : Float64) (timestamp : Int) :
    HttpRequest :=
  ⟨"POST", c.endpoint, [("Content-Type", "application/json")],
    [("sensorId", Encoded.string sensorID), ("value", Encoded.float value)]
      ++ (if timestamp = 0 then [] else [("timestamp", Encoded.int timestamp)])⟩

/-- The `201` body of the end-to-end scenario of the specification:
`{"success":true,"dataId":"abc","thresholdExceeded":false,"automation":{"rulesChecked":3,"rulesTriggered":0,"zonesCreated":[],"message":""}}`. -/
def scenarioBody : String :=
  "\x7b\"success\":true,\"dataId\":\"abc\",\"thresholdExceeded\":false,\"automation\":\x7b\"rulesChecked\":3,\"rulesTriggered\":0,\"zonesCreated\":[],\"message\":\"\"\x7d\x7d"

/-- A JSON value that a Go `string` field accepts: a string, or `null`. -/
def fitsString : JValue → Bool
  | JValue.string _ => true
  | JValue.null => true
  | _ => false

/-- An object decodes into `ErrorResponse`: every member whose key names one of
its fields holds a string or `null`. -/
def DecodesAsErrorResponse (members : List (String × JValue)) : Prop :=
  ∀ m ∈ members, fieldFor errorResponseFields m.1 ≠ none → fitsString m.2 = true

instance (members : List (String × JValue)) : Decidable (DecodesAsErrorResponse members) :=
  inferInstanceAs (Decidable (∀ m ∈ members,
    fieldFor errorResponseFields m.1 ≠ none → fitsString m.2 = true))

/-- The member of an object that the decoder stores last into the field with
JSON name `name`, among the fields `names`: the field of the object, as the
decoder reads it. -/
def lastMember (names : List String) (name : String) (members : List (String × JValue)) :
    Option JValue :=
  (members.reverse.find? fun m => fieldFor names m.1 == some name).map Prod.snd

/-- A `400` body whose `error` member is a string and whose `warning` member is
a number: `{"error":"bad value","warning":5}`. -/
def mistypedWarningBody : String :=
  "\x7b\"error\":\"bad value\",\"warning\":5\x7d"

/-- A `202` body whose `warning` member is a string and whose `error` member is
a number: `{"warning":"sensor offline","error":5}`. -/
def mistypedErrorBody : String :=
  "\x7b\"warning\":\"sensor offline\",\"error\":5\x7d"

/-- A success body that carries `thresholdExceeded` and a `dataId` that is a
number: `{"thresholdExceeded":false,"dataId":7}`. -/
def mistypedDataIdBody : String :=
  "\x7b\"thresholdExceeded\":false,\"dataId\":7\x7d"

/-- The `201` body of the threshold scenario of the specification:
`{"success":true,"dataId":"abc","thresholdExceeded":true,"automation":{"rulesChecked":3,"rulesTriggered":1,"zonesCreated":["zone-A"],"message":""}}`. -/
def thresholdBody : String :=
  "\x7b\"success\":true,\"dataId\":\"abc\",\"thresholdExceeded\":true,\"automation\":\x7b\"rulesChecked\":3,\"rulesTriggered\":1,\"zonesCreated\":[\"zone-A\"],\"message\":\"\"\x7d\x7d"

/-- A `201` body in which no field of the success schema holds the zero value
of its type:
`{"success":true,"dataId":"xyz","thresholdExceeded":true,"automation":{"rulesChecked":5,"rulesTriggered":2,"zonesCreated":["zone-A","zone-B","zone-C"],"message":"ok"}}`. -/
def busyBody : String :=
  "\x7b\"success\":true,\"dataId\":\"xyz\",\"thresholdExceeded\":true,\"automation\":\x7b\"rulesChecked\":5,\"rulesTriggered\":2,\"zonesCreated\":[\"zone-A\",\"zone-B\",\"zone-C\"],\"message\":\"ok\"\x7d\x7d"

/-- The `400` body of the specification's test: `{"error":"bad value"}`. -/
def badValueBody : String := "\x7b\"error\":\"bad value\"\x7d"

/-- A `202` body as the API contract describes it: `{"warning":"sensor offline"}`. -/
def offlineWarningBody : String := "\x7b\"warning\":\"sensor offline\"\x7d"

/-- The result `r` of a scan of `cs` is within the fuel: what is left is no
longer than the input, and every amount of fuel above the number of characters
consumed gives the same result. -/
def Enough {α : Type} (scan : Nat → Nat → List Char → Option (α × List Char))
    (d : Nat) (cs : List Char) (r : α × List Char) : Prop :=
  r.2.length ≤ cs.length ∧
    ∀ g, cs.length - r.2.length + 1 ≤ g → scan g d cs = some r

/-! ## net/http: the client on the wire

`httpClient` is built by `NewAPIClient` as `&http.Client{Timeout: timeout}`: it
has no `CheckRedirect`, so `Do` follows redirects with the default policy.  One
call of `Do` can therefore put several requests on the wire. -/

/-- A request on the wire, by its method and URL. -/
structure WireRequest where
  Method : String
  URL : String
  deriving DecidableEq

/-- What the transport answers to one request on the wire: the status code, the
`Location` header when there is one (an absolute URL), and what reading the
body gives. -/
structure WireResponse where
  StatusCode : Int
  Location : Option String
  Body : Except GoError String

/-- The transport under the client: its answer to the request number `hop`
(from 0) of one call of `Do`, given the method and the URL of that request, or
the cause of its failure. -/
structure Transport where
  RoundTrip : Nat → String → String → Except GoError WireResponse

/-- The function `redirectBehavior` of `net/http`, for a request whose body can be
sent again (`http.NewRequest` sets `GetBody` for a `*bytes.Buffer`): the method
of the next request when the status asks for a redirect.  A 301, 302 or 303
turns every method but GET and HEAD into GET; a 307 or 308 keeps the method. -/
def redirectBehavior (reqMethod : String) (statusCode : Int) : Option String :=
  if statusCode = 301 ∨ statusCode = 302 ∨ statusCode = 303 then
    some (if reqMethod != "GET" && reqMethod != "HEAD" then "GET" else reqMethod)
  else if statusCode = 307 ∨ statusCode = 308 then some reqMethod
  else none

/-- The function `urlErrorOp` of `net/http`: the method with its letters after the
first in lower case, `Get` for the empty method. -/
def urlErrorOp (method : String) : String :=
  match method.data with
  | [] => "Get"
  | m :: rest => String.mk (m :: rest.map Char.toLower)

/-- The `*url.Error` in which `Do` returns every error: its text is the
operation, the quoted URL and the text of the cause, and it unwraps to the
cause.  (The URL is quoted by `%q`, which is the URL between double quotes when
the URL has no character that needs an escape.) -/
def urlError (op url : String) (cause : GoError) : GoError :=
  GoError.wrap (op ++ " \"" ++ url ++ "\": ") cause

/-- The loop of `Client.do`: send the request; on a transport failure return the
`*url.Error`; on a response that asks for a redirect and names a location, send
the next request there, unless ten requests have been sent already
(`defaultCheckRedirect`); otherwise return the response.  `left` is the number
of further requests the policy still allows.  The result comes with the
requests put on the wire, in order. -/
def clientSend (t : Transport) (op : String) :
    Nat → Nat → String → String → Except GoError HttpResponse × List WireRequest
  | 0, hop, method, url =>
    match t.RoundTrip hop method url with
    | Except.error cause => (Except.error (urlError op url cause), [⟨method, url⟩])
    | Except.ok resp =>
      match redirectBehavior method resp.StatusCode, resp.Location with
      | some _, some loc =>
        (Except.error (urlError op loc (GoError.plain "stopped after 10 redirects")),
          [⟨method, url⟩])
      | _, _ => (Except.ok ⟨resp.StatusCode, resp.Body⟩, [⟨method, url⟩])
  | left + 1, hop, method, url =>
    match t.RoundTrip hop method url with
    | Except.error cause => (Except.error (urlError op url cause), [⟨method, url⟩])
    | Except.ok resp =>
      match redirectBehavior method resp.StatusCode, resp.Location with
      | some next, some loc =>
        ((clientSend t op left (hop + 1) next loc).1,
          ⟨method, url⟩ :: (clientSend t op left (hop + 1) next loc).2)
      | _, _ => (Except.ok ⟨resp.StatusCode, resp.Body⟩, [⟨method, url⟩])

/-- The method `Do` of `http.Client` with the default redirect policy, over the
transport `t`: its result, and the requests it put on the wire. -/
def clientDo (t : Transport) (req : HttpRequest) :
    Except GoError HttpResponse × List WireRequest :=
  clientSend t (urlErrorOp req.Method) 9 0 req.Method req.URL

/-- The surroundings of a call whose `httpClient` is the default client over the
transport `t`. -/
def clientEnv (parseURL : String → Option GoError) (t : Transport) : Env :=
  ⟨parseURL, fun req => (clientDo t req).1⟩

/-- The requests a call put on the wire: those of each request it handed to
`httpClient.Do`. -/
def wireRequests (t : Transport) (out : Outcome) : List WireRequest :=
  out.requests.flatMap fun req => (clientDo t req).2

/-- The chain of an error: the error itself and the errors it wraps, outermost
first (what `errors.Is` walks). -/
def GoError.chain : GoError → List GoError
  | GoError.plain t => [GoError.plain t]
  | GoError.wrap t c => GoError.wrap t c :: c.chain

/-- A transport that redirects the first request with a 307 and whose
connection is reset while the second awaits its response. -/
def redirectThenReset : Transport :=
  ⟨fun hop _ _ =>
    if hop = 0 then Except.ok ⟨307, some "http://api.local/v2/data", Except.ok ""⟩
    else Except.error (GoError.plain "read tcp: connection reset by peer")⟩

/-- A transport that redirects the first request with a 307 and answers the
second with 201 and the body of the end-to-end scenario. -/
def redirectThenCreated : Transport :=
  ⟨fun hop _ _ =>
    if hop = 0 then Except.ok ⟨307, some "http://api.local/v2/data", Except.ok ""⟩
    else Except.ok ⟨201, none, Except.ok scenarioBody⟩⟩

/-- A transport that refuses every connection. -/
def refuseAll : Transport :=
  ⟨fun _ _ _ => Except.error (GoError.plain "dial tcp: connection refused")⟩

/-! ## Lemmas on the scanner -/

/-- Skipping white space does not lengthen the input. -/
theorem skipSpace_length (cs : List Char) : (skipSpace cs).length ≤ cs.length := by
  induction cs with
  | nil => simp [skipSpace]
  | cons c cs ih =>
    unfold skipSpace
    split
    · simp only [List.length_cons]; omega
    · exact Nat.le_refl _

/-- What follows a run of digits is no longer than the input. -/
theorem spanDigits_length (cs : List Char) : (spanDigits cs).2.length ≤ cs.length := by
  induction cs with
  | nil => simp [spanDigits]
  | cons c cs ih =>
    unfold spanDigits
    split
    · simp only [List.length_cons]; omega
    · exact Nat.le_refl _

/-- What follows an optional sign is no longer than the input. -/
theorem spanSign_length (cs : List Char) : (spanSign cs).2.length ≤ cs.length := by
  cases cs with
  | nil => simp [spanSign]
  | cons c cs =>
    simp only [spanSign]
    split
    · simp only [List.length_cons]; omega
    · exact Nat.le_refl _

/-- What follows an optional minus sign is no longer than the input. -/
theorem spanMinus_length (cs : List Char) : (spanMinus cs).2.length ≤ cs.length := by
  cases cs with
  | nil => simp [spanMinus]
  | cons c cs =>
    simp only [spanMinus]
    split
    · simp only [List.length_cons]; omega
    · exact Nat.le_refl _

/-- What follows an exponent is no longer than the input. -/
theorem scanExponent_length (lit cs : List Char) (r : List Char × List Char)
    (h : scanExponent lit cs = some r) : r.2.length ≤ cs.length := by
  cases cs with
  | nil => simp only [scanExponent, Option.some.injEq] at h; subst h; exact Nat.le_refl _
  | cons e rest =>
    simp only [scanExponent] at h
    split at h
    · split at h
      · cases h
      · simp only [Option.some.injEq] at h
        subst h
        have h1 := spanDigits_length (spanSign rest).2
        have h2 := spanSign_length rest
        simp only [List.length_cons]
        omega
    · simp only [Option.some.injEq] at h; subst h; exact Nat.le_refl _

/-- What follows a fraction is no longer than the input. -/
theorem scanFraction_length (lit cs : List Char) (r : List Char × List Char)
    (h : scanFraction lit cs = some r) : r.2.length ≤ cs.length := by
  cases cs with
  | nil => simp only [scanFraction] at h; exact scanExponent_length _ _ _ h
  | cons p rest =>
    simp only [scanFraction] at h
    split at h
    · split at h
      · cases h
      · have h1 := scanExponent_length _ _ _ h
        have h2 := spanDigits_length rest
        simp only [List.length_cons]
        omega
    · exact scanExponent_length _ _ _ h

/-- What follows the digits of a number is no longer than the input. -/
theorem scanInteger_length (sign cs : List Char) (r : List Char × List Char)
    (h : scanInteger sign cs = some r) : r.2.length ≤ cs.length := by
  cases cs with
  | nil => simp only [scanInteger] at h; cases h
  | cons d rest =>
    simp only [scanInteger] at h
    split at h
    · have h1 := scanFraction_length _ _ _ h
      simp only [List.length_cons]
      omega
    · split at h
      · have h1 := scanFraction_length _ _ _ h
        have h2 := spanDigits_length rest
        simp only [List.length_cons]
        omega
      · cases h

/-- What follows a number is no longer than the input. -/
theorem scanNumber_length (cs : List Char) (r : String × List Char)
    (h : scanNumber cs = some r) : r.2.length ≤ cs.length := by
  unfold scanNumber at h
  cases hi : scanInteger (spanMinus cs).1 (spanMinus cs).2 with
  | none => rw [hi] at h; cases h
  | some q =>
    rw [hi] at h
    simp only [Option.map_some', Option.some.injEq] at h
    subst h
    have h1 := scanInteger_length _ _ _ hi
    have h2 := spanMinus_length cs
    simp only
    omega

/-- What follows a `\uXXXX` escape is no longer than the input. -/
theorem getu4_length (cs : List Char) (r : Nat × List Char) (h : getu4 cs = some r) :
    r.2.length ≤ cs.length := by
  unfold getu4 at h
  split at h
  · split at h
    · simp only [Option.some.injEq] at h
      subst h
      simp only [List.length_cons]
      omega
    · cases h
  · cases h

/-- What follows a string is no longer than the input. -/
theorem scanString_length : ∀ (fuel : Nat) (acc cs : List Char) (r : String × List Char),
    scanString fuel acc cs = some r → r.2.length ≤ cs.length := by
  intro fuel
  induction fuel with
  | zero => intro acc cs r h; simp [scanString] at h
  | succ n ih =>
    intro acc cs r h
    cases cs with
    | nil => simp [scanString] at h
    | cons c cs =>
      simp only [scanString] at h
      split at h
      · simp only [Option.some.injEq] at h
        subst h
        simp only [List.length_cons]
        omega
      · split at h
        · split at h
          · cases h
          · split at h
            · cases h
            · rename_i u rest hg
              have hl := getu4_length _ _ hg
              simp only [List.length_cons] at hl ⊢
              split at h
              · split at h
                · have := ih _ _ _ h
                  omega
                · rename_i u2 rest2 hg2
                  have hl2 := getu4_length _ _ hg2
                  simp only at hl2
                  split at h
                  · have := ih _ _ _ h
                    omega
                  · have := ih _ _ _ h
                    omega
              · have := ih _ _ _ h
                omega
          · split at h
            · have := ih _ _ _ h
              simp only [List.length_cons] at this ⊢
              omega
            · cases h
        · split at h
          · cases h
          · have := ih _ _ _ h
            simp only [List.length_cons]
            omega


/-- A successful scan, with whatever fuel, is reproduced by any fuel above the
number of characters it consumed: the three scanning functions never fail,
or change their result, for want of fuel beyond that. -/
theorem scan_enough (f : Nat) :
    (∀ d cs r, scanValue f d cs = some r → Enough scanValue d cs r) ∧
    (∀ d cs r, scanItems f d cs = some r → Enough scanItems d cs r) ∧
    (∀ d cs r, scanMembers f d cs = some r → Enough scanMembers d cs r) := by
  induction f with
  | zero =>
    refine ⟨?_, ?_, ?_⟩ <;> intro d cs r h
    · simp [scanValue] at h
    · simp [scanItems] at h
    · simp [scanMembers] at h
  | succ n ih =>
    obtain ⟨ihV, ihI, ihM⟩ := ih
    refine ⟨?_, ?_, ?_⟩
    · intro d cs r h
      have hsp := skipSpace_length cs
      rw [scanValue] at h
      split at h
      · cases h
      · rename_i rest heq
        cases h
        rw [heq] at hsp
        simp only [List.length_cons] at hsp
        refine ⟨by simp only; omega, ?_⟩
        intro g hg
        obtain ⟨g', rfl⟩ : ∃ g', g = g' + 1 := ⟨g - 1, by simp only at hg; omega⟩
        rw [scanValue, heq]
        rfl
      · rename_i rest heq
        cases h
        rw [heq] at hsp
        simp only [List.length_cons] at hsp
        refine ⟨by simp only; omega, ?_⟩
        intro g hg
        obtain ⟨g', rfl⟩ : ∃ g', g = g' + 1 := ⟨g - 1, by simp only at hg; omega⟩
        rw [scanValue, heq]
        rfl
      · rename_i rest heq
        cases h
        rw [heq] at hsp
        simp only [List.length_cons] at hsp
        refine ⟨by simp only; omega, ?_⟩
        intro g hg
        obtain ⟨g', rfl⟩ : ∃ g', g = g' + 1 := ⟨g - 1, by simp only at hg; omega⟩
        rw [scanValue, heq]
        rfl
      · rename_i rest heq
        rw [heq] at hsp
        simp only [List.length_cons] at hsp
        cases hs : scanString (rest.length + 1) [] rest with
        | none => rw [hs] at h; cases h
        | some q =>
          rw [hs] at h
          cases h
          have hq := scanString_length _ _ _ _ hs
          refine ⟨by simp only; omega, ?_⟩
          intro g hg
          obtain ⟨g', rfl⟩ : ∃ g', g = g' + 1 := ⟨g - 1, by simp only at hg; omega⟩
          rw [scanValue, heq]
          simp only [hs, Option.map_some']
      · rename_i rest heq
        rw [heq] at hsp
        simp only [List.length_cons] at hsp
        have hsp2 := skipSpace_length rest
        split at h
        · cases h
        · rename_i hdepth
          split at h
          · rename_i rest2 heq2
            cases h
            rw [heq2] at hsp2
            simp only [List.length_cons] at hsp2
            refine ⟨by simp only; omega, ?_⟩
            intro g hg
            obtain ⟨g', rfl⟩ : ∃ g', g = g' + 1 := ⟨g - 1, by simp only at hg; omega⟩
            rw [scanValue, heq]
            simp only [if_neg hdepth, heq2]
          · rename_i hne
            cases hi : scanItems n (d + 1) rest with
            | none => rw [hi] at h; cases h
            | some q =>
              rw [hi] at h
              cases h
              obtain ⟨hl, hg1⟩ := ihI _ _ _ hi
              refine ⟨by simp only; omega, ?_⟩
              intro g hg
              obtain ⟨g', rfl⟩ : ∃ g', g = g' + 1 := ⟨g - 1, by simp only at hg; omega⟩
              rw [scanValue, heq]
              simp only [if_neg hdepth]
              rw [hg1 g' (by simp only at hg; omega)]
              rfl
      · rename_i rest heq
        rw [heq] at hsp
        simp only [List.length_cons] at hsp
        have hsp2 := skipSpace_length rest
        split at h
        · cases h
        · rename_i hdepth
          split at h
          · rename_i rest2 heq2
            cases h
            rw [heq2] at hsp2
            simp only [List.length_cons] at hsp2
            refine ⟨by simp only; omega, ?_⟩
            intro g hg
            obtain ⟨g', rfl⟩ : ∃ g', g = g' + 1 := ⟨g - 1, by simp only at hg; omega⟩
            rw [scanValue, heq]
            simp only [if_neg hdepth, heq2]
          · rename_i hne
            cases hi : scanMembers n (d + 1) rest with
            | none => rw [hi] at h; cases h
            | some q =>
              rw [hi] at h
              cases h
              obtain ⟨hl, hg1⟩ := ihM _ _ _ hi
              refine ⟨by simp only; omega, ?_⟩
              intro g hg
              obtain ⟨g', rfl⟩ : ∃ g', g = g' + 1 := ⟨g - 1, by simp only at hg; omega⟩
              rw [scanValue, heq]
              simp only [if_neg hdepth]
              rw [hg1 g' (by simp only at hg; omega)]
              rfl
      · rename_i c rest hn1 hn2 hn3 hn4 hn5 hn6 heq
        rw [heq] at hsp
        cases hs : scanNumber (c :: rest) with
        | none => rw [hs] at h; cases h
        | some q =>
          rw [hs] at h
          cases h
          have hq := scanNumber_length _ _ hs
          refine ⟨by simp only; omega, ?_⟩
          intro g hg
          obtain ⟨g', rfl⟩ : ∃ g', g = g' + 1 := ⟨g - 1, by simp only at hg; omega⟩
          rw [scanValue, heq]
          split
          · rename_i e; cases e
          · rename_i e; injection e with e1 e2; exact absurd e2 (hn1 _ e1)
          · rename_i e; injection e with e1 e2; exact absurd e2 (hn2 _ e1)
          · rename_i e; injection e with e1 e2; exact absurd e2 (hn3 _ e1)
          · rename_i e; injection e with e1 e2; exact absurd e1 hn4
          · rename_i e; injection e with e1 e2; exact absurd e1 hn5
          · rename_i e; injection e with e1 e2; exact absurd e1 hn6
          · rename_i e
            injection e with e1 e2
            subst e1
            subst e2
            rw [hs]
            rfl
    · intro d cs r h
      rw [scanItems] at h
      split at h
      · cases h
      · rename_i v rest heq
        obtain ⟨hl1, hg1⟩ := ihV _ _ _ heq
        have hsp := skipSpace_length rest
        simp only at hl1 hg1
        split at h
        · rename_i rest2 heq2
          rw [heq2] at hsp
          simp only [List.length_cons] at hsp
          cases hi : scanItems n d rest2 with
          | none => rw [hi] at h; cases h
          | some q =>
            rw [hi] at h
            cases h
            obtain ⟨hl2, hg2⟩ := ihI _ _ _ hi
            refine ⟨by simp only; omega, ?_⟩
            intro g hg
            obtain ⟨g', rfl⟩ : ∃ g', g = g' + 1 := ⟨g - 1, by simp only at hg; omega⟩
            rw [scanItems, hg1 g' (by simp only at hg; omega)]
            simp only [heq2]
            rw [hg2 g' (by simp only at hg; omega)]
            rfl
        · rename_i rest2 heq2
          rw [heq2] at hsp
          simp only [List.length_cons] at hsp
          cases h
          refine ⟨by simp only; omega, ?_⟩
          intro g hg
          obtain ⟨g', rfl⟩ : ∃ g', g = g' + 1 := ⟨g - 1, by simp only at hg; omega⟩
          rw [scanItems, hg1 g' (by simp only at hg; omega)]
          simp only [heq2]
        · cases h
    · intro d cs r h
      have hsp := skipSpace_length cs
      rw [scanMembers] at h
      split at h
      · rename_i rest heq
        rw [heq] at hsp
        simp only [List.length_cons] at hsp
        split at h
        · cases h
        · rename_i key rest2 hkey
          have hk := scanString_length _ _ _ _ hkey
          have hsp2 := skipSpace_length rest2
          simp only at hk
          split at h
          · rename_i rest3 heq3
            rw [heq3] at hsp2
            simp only [List.length_cons] at hsp2
            split at h
            · cases h
            · rename_i v rest4 hv
              obtain ⟨hl1, hg1⟩ := ihV _ _ _ hv
              have hsp4 := skipSpace_length rest4
              simp only at hl1 hg1
              split at h
              · rename_i rest5 heq5
                rw [heq5] at hsp4
                simp only [List.length_cons] at hsp4
                cases hm : scanMembers n d rest5 with
                | none => rw [hm] at h; cases h
                | some q =>
                  rw [hm] at h
                  cases h
                  obtain ⟨hl2, hg2⟩ := ihM _ _ _ hm
                  refine ⟨by simp only; omega, ?_⟩
                  intro g hg
                  obtain ⟨g', rfl⟩ : ∃ g', g = g' + 1 := ⟨g - 1, by simp only at hg; omega⟩
                  rw [scanMembers, heq]
                  simp only [hkey, heq3]
                  rw [hg1 g' (by simp only at hg; omega)]
                  simp only [heq5]
                  rw [hg2 g' (by simp only at hg; omega)]
                  rfl
              · rename_i rest5 heq5
                rw [heq5] at hsp4
                simp only [List.length_cons] at hsp4
                cases h
                refine ⟨by simp only; omega, ?_⟩
                intro g hg
                obtain ⟨g', rfl⟩ : ∃ g', g = g' + 1 := ⟨g - 1, by simp only at hg; omega⟩
                rw [scanMembers, heq]
                simp only [hkey, heq3]
                rw [hg1 g' (by simp only at hg; omega)]
                simp only [heq5]
              · cases h
          · cases h
      · cases h


/-- The fuel `parseJSON` gives the scan is enough: a scan of the whole input
that succeeds with some amount of fuel succeeds, with the same result, with
the fuel `parseJSON` uses. -/
theorem scanValue_fuel_enough (data : String) (f : Nat) (r : JValue × List Char)
    (h : scanValue f 0 data.data = some r) :
    scanValue (data.length + 1) 0 data.data = some r := by
  obtain ⟨hl, hg⟩ := (scan_enough f).1 0 data.data r h
  apply hg
  have : data.length = data.data.length := rfl
  omega

/-- An input is rejected by `parseJSON` only when no amount of fuel makes the
scan accept it: with every fuel the scan fails or leaves more than white
space behind. -/
theorem parseJSON_eq_none_iff (data : String) :
    parseJSON data = none ↔
      ∀ (f : Nat) (r : JValue × List Char), scanValue f 0 data.data = some r →
        (skipSpace r.2).isEmpty = false := by
  constructor
  · intro hp f r h
    have h2 := scanValue_fuel_enough data f r h
    unfold parseJSON at hp
    rw [h2] at hp
    simp only at hp
    cases hb : (skipSpace r.2).isEmpty with
    | false => rfl
    | true => rw [hb] at hp; simp at hp
  · intro hall
    unfold parseJSON
    cases hs : scanValue (data.length + 1) 0 data.data with
    | none => rfl
    | some r =>
      have hb := hall _ r hs
      simp only [hb]
      rfl

/-! ## Lemmas on the client -/

/-- A value that is not finite stops the call at `json.Marshal`. -/
theorem send_of_not_finite (env : Env) (c : APIClient) (sensorID : String) (value : Float64)
    (timestamp : Int) (h : value.IsFinite = false) :
    SendSensorData env c sensorID value timestamp =
      ⟨some (GoError.wrap "failed to marshal request: "
          (GoError.plain ("json: unsupported value: " ++ value.formatNonFinite))), [], []⟩ := by
  have hv : (value.IsInf || value.IsNaN) = true := by
    unfold Float64.IsFinite at h
    cases hx : (value.IsInf || value.IsNaN) with
    | true => rfl
    | false => rw [hx] at h; cases h
  simp only [SendSensorData, Marshal, hv, if_true]

/-- A URL that does not parse stops the call at `http.NewRequest`. -/
theorem send_of_bad_url (env : Env) (c : APIClient) (sensorID : String) (value : Float64)
    (timestamp : Int) (e : GoError) (h : value.IsFinite = true)
    (hu : env.parseURL c.endpoint = some e) :
    SendSensorData env c sensorID value timestamp =
      ⟨some (GoError.wrap "failed to create request: " e), [], []⟩ := by
  have hv : (value.IsInf || value.IsNaN) = false := by
    simpa [Float64.IsFinite] using h
  simp [SendSensorData, Marshal, NewRequest, hv, hu]

/-- Past `http.NewRequest`, the call is the round trip of `builtRequest`. -/
theorem send_of_built (env : Env) (c : APIClient) (sensorID : String) (value : Float64)
    (timestamp : Int) (h : value.IsFinite = true) (hu : env.parseURL c.endpoint = none) :
    SendSensorData env c sensorID value timestamp =
      match env.Do (builtRequest c sensorID value timestamp) with
      | Except.error err =>
        ⟨some (GoError.wrap "failed to send request: " err), [sendingEntry c sensorID value],
          [builtRequest c sensorID value timestamp]⟩
      | Except.ok resp =>
        match resp.Body with
        | Except.error err =>
          ⟨some (GoError.wrap "failed to read response: " err), [sendingEntry c sensorID value],
            [builtRequest c sensorID value timestamp]⟩
        | Except.ok respBody =>
          ⟨(handleStatus sensorID resp.StatusCode respBody).1,
            sendingEntry c sensorID value :: (handleStatus sensorID resp.StatusCode respBody).2,
            [builtRequest c sensorID value timestamp]⟩ := by
  have hv : (value.IsInf || value.IsNaN) = false := by
    simpa [Float64.IsFinite] using h
  simp [SendSensorData, Marshal, NewRequest, hv, hu, HttpRequest.setHeader, builtRequest]

/-- Every call hands to `httpClient.Do` either nothing or `builtRequest` alone. -/
theorem requests_cases (env : Env) (c : APIClient) (sensorID : String) (value : Float64)
    (timestamp : Int) :
    (SendSensorData env c sensorID value timestamp).requests = [] ∨
    (value.IsFinite = true ∧ env.parseURL c.endpoint = none ∧
      (SendSensorData env c sensorID value timestamp).requests
        = [builtRequest c sensorID value timestamp]) := by
  cases h : value.IsFinite with
  | false => left; rw [send_of_not_finite env c sensorID value timestamp h]
  | true =>
    cases hu : env.parseURL c.endpoint with
    | some e => left; rw [send_of_bad_url env c sensorID value timestamp e h hu]
    | none =>
      right
      refine ⟨rfl, rfl, ?_⟩
      rw [send_of_built env c sensorID value timestamp h hu]
      cases env.Do (builtRequest c sensorID value timestamp) with
      | error e => rfl
      | ok resp =>
        cases hb : resp.Body with
        | error e => simp only [hb]
        | ok b => simp only [hb]

/-- A call that got a response is the request's debug entry followed by what
`handleStatus` does with the status and the body. -/
theorem send_of_responded (env : Env) (c : APIClient) (sensorID : String) (value : Float64)
    (timestamp : Int) (status : Int) (body : String)
    (h : Responded env c sensorID value timestamp status body) :
    SendSensorData env c sensorID value timestamp =
      ⟨(handleStatus sensorID status body).1,
        sendingEntry c sensorID value :: (handleStatus sensorID status body).2,
        [builtRequest c sensorID value timestamp]⟩ := by
  unfold Responded received at h
  rcases requests_cases env c sensorID value timestamp with h0 | ⟨hfin, hu, hb⟩
  · rw [h0] at h; cases h
  · rw [hb] at h
    rw [send_of_built env c sensorID value timestamp hfin hu]
    simp only at h
    cases hdo : env.Do (builtRequest c sensorID value timestamp) with
    | error e => rw [hdo] at h; cases h
    | ok resp =>
      rw [hdo] at h
      cases hbody : resp.Body with
      | error e => simp [hbody] at h
      | ok b =>
        simp only [hbody, Option.some.injEq, Prod.mk.injEq] at h
        obtain ⟨hst, hbd⟩ := h
        subst hst
        subst hbd
        simp only [hbody]

/-- In `replyEnv`, a call with a finite value gets the response. -/
theorem responded_replyEnv (c : APIClient) (sensorID : String) (value : Float64)
    (timestamp : Int) (status : Int) (body : String) (h : value.IsFinite = true) :
    Responded (replyEnv status body) c sensorID value timestamp status body := by
  unfold Responded received
  rcases requests_cases (replyEnv status body) c sensorID value timestamp with h0 | ⟨_, _, hb⟩
  · exfalso
    rw [send_of_built (replyEnv status body) c sensorID value timestamp h rfl] at h0
    simp [replyEnv] at h0
  · rw [hb]
    rfl

/-- The status codes for which `handleStatus` returns `nil`. -/
theorem handleStatus_err_none_iff (sensorID : String) (status : Int) (body : String) :
    (handleStatus sensorID status body).1 = none ↔
      (status = 200 ∨ status = 201 ∨ status = 202) := by
  unfold handleStatus StatusCreated StatusOK StatusAccepted StatusBadRequest
  by_cases h1 : status = 201 ∨ status = 200
  · rw [if_pos h1]
    have hr : status = 200 ∨ status = 201 ∨ status = 202 := by
      rcases h1 with h | h
      · exact Or.inr (Or.inl h)
      · exact Or.inl h
    cases UnmarshalSensorDataResponse body with
    | error e => simp [hr]
    | ok r => by_cases ht : r.ThresholdExceeded = true <;> simp [ht, hr]
  · rw [if_neg h1]
    have h200 : status ≠ 200 := fun h => h1 (Or.inr h)
    have h201 : status ≠ 201 := fun h => h1 (Or.inl h)
    by_cases h2 : status = 202
    · rw [if_pos h2]
      cases UnmarshalErrorResponse body <;> simp [h2]
    · rw [if_neg h2]
      by_cases h4 : status = 400
      · rw [if_pos h4]
        cases UnmarshalErrorResponse body <;> simp [h4]
      · rw [if_neg h4]
        simp [h200, h201, h2]

/-! ## Lemmas on the client on the wire -/

/-- The loop of `Client.do` sends at most one request more than the policy still
allows. -/
theorem clientSend_length (t : Transport) (op : String) :
    ∀ (left hop : Nat) (method url : String),
      (clientSend t op left hop method url).2.length ≤ left + 1 := by
  intro left
  induction left with
  | zero =>
    intro hop method url
    unfold clientSend
    cases t.RoundTrip hop method url with
    | error cause => simp
    | ok resp =>
      simp only
      split <;> simp
  | succ n ih =>
    intro hop method url
    unfold clientSend
    cases t.RoundTrip hop method url with
    | error cause => simp
    | ok resp =>
      simp only
      split
      · rename_i next loc _ _
        have := ih (hop + 1) next loc
        simp only [List.length_cons]
        omega
      · simp

/-- A request that fails on the wire ends the loop: `Do` returns the
`*url.Error` of the cause and nothing else is sent. -/
theorem clientSend_of_error (t : Transport) (op : String) (left hop : Nat)
    (method url : String) (cause : GoError)
    (h : t.RoundTrip hop method url = Except.error cause) :
    clientSend t op left hop method url =
      (Except.error (urlError op url cause), [⟨method, url⟩]) := by
  cases left with
  | zero => unfold clientSend; rw [h]
  | succ n => unfold clientSend; rw [h]

/-- A response that asks for no redirect, or names no location, ends the loop:
`Do` returns it and nothing else is sent. -/
theorem clientSend_of_final (t : Transport) (op : String) (left hop : Nat)
    (method url : String) (resp : WireResponse)
    (h : t.RoundTrip hop method url = Except.ok resp)
    (hfinal : redirectBehavior method resp.StatusCode = none ∨ resp.Location = none) :
    clientSend t op left hop method url =
      (Except.ok ⟨resp.StatusCode, resp.Body⟩, [⟨method, url⟩]) := by
  cases left with
  | zero =>
    unfold clientSend
    rw [h]
    simp only
    split
    · rename_i h1 h2
      rcases hfinal with h0 | h0
      · rw [h0] at h1; cases h1
      · rw [h0] at h2; cases h2
    · rfl
  | succ n =>
    unfold clientSend
    rw [h]
    simp only
    split
    · rename_i h1 h2
      rcases hfinal with h0 | h0
      · rw [h0] at h1; cases h1
      · rw [h0] at h2; cases h2
    · rfl

/-- The requests a call puts on the wire are those of the one request it hands
to `Do`, when it hands one over. -/
theorem wireRequests_of_built (parseURL : String → Option GoError) (t : Transport)
    (c : APIClient) (sensorID : String) (value : Float64) (timestamp : Int)
    (h : value.IsFinite = true) (hu : parseURL c.endpoint = none) :
    wireRequests t (SendSensorData (clientEnv parseURL t) c sensorID value timestamp) =
      (clientSend t "Post" 9 0 "POST" c.endpoint).2 := by
  rcases requests_cases (clientEnv parseURL t) c sensorID value timestamp with h0 | ⟨_, _, hb⟩
  · exfalso
    rw [send_of_built (clientEnv parseURL t) c sensorID value timestamp h hu] at h0
    cases hd : (clientEnv parseURL t).Do (builtRequest c sensorID value timestamp) with
    | error e => rw [hd] at h0; cases h0
    | ok resp =>
      rw [hd] at h0
      cases hbody : resp.Body with
      | error e => simp [hbody] at h0
      | ok b => simp [hbody] at h0
  · unfold wireRequests
    rw [hb]
    simp only [List.flatMap_cons, List.flatMap_nil, List.append_nil]
    rfl

/-! ## Lemmas on the decoder -/

/-- The last member stored into a field, when a member is added at the end. -/
theorem lastMember_snoc (names : List String) (name : String)
    (l : List (String × JValue)) (a : String × JValue) :
    lastMember names name (l ++ [a]) =
      if fieldFor names a.1 = some name then some a.2 else lastMember names name l := by
  unfold lastMember
  rw [List.reverse_append]
  simp only [List.reverse_cons, List.reverse_nil, List.nil_append, List.singleton_append,
    List.find?_cons]
  cases hb : (fieldFor names a.1 == some name) with
  | true =>
    have h : fieldFor names a.1 = some name := by simpa using hb
    simp [h]
  | false =>
    have h : ¬ fieldFor names a.1 = some name := by simpa using hb
    simp [h]

/-- What one member does to the field `Error`. -/
theorem decodeErrorMember_Error (st : Decoding ErrorResponse) (a : String × JValue) :
    (decodeErrorMember st a).val.Error =
      if fieldFor errorResponseFields a.1 = some "error" then (storeString st.val.Error a.2).1
      else st.val.Error := by
  unfold decodeErrorMember
  split <;> simp_all

/-- What one member does to the field `Warning`. -/
theorem decodeErrorMember_Warning (st : Decoding ErrorResponse) (a : String × JValue) :
    (decodeErrorMember st a).val.Warning =
      if fieldFor errorResponseFields a.1 = some "warning" then
        (storeString st.val.Warning a.2).1
      else st.val.Warning := by
  unfold decodeErrorMember
  split <;> simp_all

/-- What one member does to the field `ThresholdExceeded`. -/
theorem decodeResponseMember_ThresholdExceeded (st : Decoding SensorDataResponse)
    (a : String × JValue) :
    (decodeResponseMember st a).val.ThresholdExceeded =
      if fieldFor sensorDataResponseFields a.1 = some "thresholdExceeded" then
        (storeBool st.val.ThresholdExceeded a.2).1
      else st.val.ThresholdExceeded := by
  unfold decodeResponseMember
  split <;> simp_all

/-- After all members, `Error` is the string of the last `error` member. -/
theorem foldl_Error_of_lastMember (e : String) (members : List (String × JValue)) :
    ∀ st : Decoding ErrorResponse,
      lastMember errorResponseFields "error" members = some (JValue.string e) →
      (members.foldl decodeErrorMember st).val.Error = e := by
  induction members using List.reverseRecOn with
  | nil => intro st h; simp [lastMember] at h
  | append_singleton l a ih =>
    intro st h
    rw [lastMember_snoc] at h
    rw [List.foldl_append, List.foldl_cons, List.foldl_nil, decodeErrorMember_Error]
    by_cases hf : fieldFor errorResponseFields a.1 = some "error"
    · rw [if_pos hf] at h ⊢
      have hv : a.2 = JValue.string e := by simpa using h
      rw [hv]
      rfl
    · rw [if_neg hf] at h ⊢
      exact ih st h

/-- After all members, `Warning` is the string of the last `warning` member. -/
theorem foldl_Warning_of_lastMember (w : String) (members : List (String × JValue)) :
    ∀ st : Decoding ErrorResponse,
      lastMember errorResponseFields "warning" members = some (JValue.string w) →
      (members.foldl decodeErrorMember st).val.Warning = w := by
  induction members using List.reverseRecOn with
  | nil => intro st h; simp [lastMember] at h
  | append_singleton l a ih =>
    intro st h
    rw [lastMember_snoc] at h
    rw [List.foldl_append, List.foldl_cons, List.foldl_nil, decodeErrorMember_Warning]
    by_cases hf : fieldFor errorResponseFields a.1 = some "warning"
    · rw [if_pos hf] at h ⊢
      have hv : a.2 = JValue.string w := by simpa using h
      rw [hv]
      rfl
    · rw [if_neg hf] at h ⊢
      exact ih st h

/-- After all members, `ThresholdExceeded` is the boolean of the last
`thresholdExceeded` member. -/
theorem foldl_ThresholdExceeded_of_lastMember (b : Bool) (members : List (String × JValue)) :
    ∀ st : Decoding SensorDataResponse,
      lastMember sensorDataResponseFields "thresholdExceeded" members = some (JValue.bool b) →
      (members.foldl decodeResponseMember st).val.ThresholdExceeded = b := by
  induction members using List.reverseRecOn with
  | nil => intro st h; simp [lastMember] at h
  | append_singleton l a ih =>
    intro st h
    rw [lastMember_snoc] at h
    rw [List.foldl_append, List.foldl_cons, List.foldl_nil,
      decodeResponseMember_ThresholdExceeded]
    by_cases hf : fieldFor sensorDataResponseFields a.1 = some "thresholdExceeded"
    · rw [if_pos hf] at h ⊢
      have hv : a.2 = JValue.bool b := by simpa using h
      rw [hv]
      rfl
    · rw [if_neg hf] at h ⊢
      exact ih st h

/-- A decoded object is the value the walk over its members ends with. -/
theorem decodeStruct_object_ok {α : Type} (zero : α)
    (step : Decoding α → String × JValue → Decoding α) (members : List (String × JValue))
    (r : α) (h : decodeStruct zero step (JValue.object members) = Except.ok r) :
    r = (members.foldl step ⟨zero, none⟩).val := by
  unfold decodeStruct at h
  simp only at h
  split at h
  · cases h
  · cases h; rfl

/-- The `Error` and `Warning` of a decoded error body are the strings of its
last `error` and `warning` members. -/
theorem UnmarshalErrorResponse_fields (body : String) (members : List (String × JValue))
    (r : ErrorResponse) (hj : parseJSON body = some (JValue.object members))
    (hr : UnmarshalErrorResponse body = Except.ok r) :
    (∀ e, lastMember errorResponseFields "error" members = some (JValue.string e) →
      r.Error = e) ∧
    (∀ w, lastMember errorResponseFields "warning" members = some (JValue.string w) →
      r.Warning = w) := by
  unfold UnmarshalErrorResponse at hr
  rw [hj] at hr
  have hv := decodeStruct_object_ok _ _ members r hr
  subst hv
  exact ⟨fun e he => foldl_Error_of_lastMember e members _ he,
    fun w hw => foldl_Warning_of_lastMember w members _ hw⟩

/-- The `ThresholdExceeded` of a decoded success body is the boolean of its last
`thresholdExceeded` member. -/
theorem UnmarshalSensorDataResponse_threshold (body : String)
    (members : List (String × JValue)) (r : SensorDataResponse) (b : Bool)
    (hj : parseJSON body = some (JValue.object members))
    (hr : UnmarshalSensorDataResponse body = Except.ok r)
    (hb : lastMember sensorDataResponseFields "thresholdExceeded" members
      = some (JValue.bool b)) :
    r.ThresholdExceeded = b := by
  unfold UnmarshalSensorDataResponse at hr
  rw [hj] at hr
  have hv := decodeStruct_object_ok _ _ members r hr
  subst hv
  exact foldl_ThresholdExceeded_of_lastMember b members _ hb

/-- Storing into a string records an error exactly for a value that does not
fit. -/
theorem storeString_saved (old : String) (v : JValue) :
    (storeString old v).2 = none ↔ fitsString v = true := by
  cases v <;> simp [storeString, fitsString]

/-- A key selects one of the names it is looked up in. -/
theorem fieldFor_mem (names : List String) (key name : String)
    (h : fieldFor names key = some name) : name ∈ names := by
  unfold fieldFor at h
  split at h
  · rename_i n hn
    cases h
    exact List.mem_of_find?_eq_some hn
  · exact List.mem_of_find?_eq_some h

/-- What one member does to the recorded error. -/
theorem decodeErrorMember_saved (st : Decoding ErrorResponse) (a : String × JValue) :
    (decodeErrorMember st a).saved = none ↔
      (st.saved = none ∧ (fieldFor errorResponseFields a.1 ≠ none → fitsString a.2 = true)) := by
  cases hf : fieldFor errorResponseFields a.1 with
  | none =>
    unfold decodeErrorMember
    simp [hf]
  | some name =>
    have hm := fieldFor_mem _ _ _ hf
    simp only [errorResponseFields, List.mem_cons, List.mem_singleton, List.not_mem_nil,
      or_false] at hm
    rcases hm with rfl | rfl
    · unfold decodeErrorMember
      simp only [hf]
      cases hs : st.saved with
      | none => simp [saveError, storeString_saved]
      | some e => simp [saveError]
    · unfold decodeErrorMember
      simp only [hf]
      cases hs : st.saved with
      | none => simp [saveError, storeString_saved]
      | some e => simp [saveError]

/-- The walk over the members ends without an error exactly when it starts
without one and every member naming a field fits. -/
theorem foldl_saved_none_iff (members : List (String × JValue)) :
    ∀ st : Decoding ErrorResponse,
      (members.foldl decodeErrorMember st).saved = none ↔
        (st.saved = none ∧ DecodesAsErrorResponse members) := by
  induction members with
  | nil => intro st; simp [DecodesAsErrorResponse]
  | cons a l ih =>
    intro st
    rw [List.foldl_cons, ih, decodeErrorMember_saved]
    unfold DecodesAsErrorResponse
    simp only [List.mem_cons, forall_eq_or_imp]
    tauto

/-- An object body decodes into `ErrorResponse` exactly when every member naming
a field holds a string or `null`. -/
theorem UnmarshalErrorResponse_ok_iff (body : String) (members : List (String × JValue))
    (hj : parseJSON body = some (JValue.object members)) :
    (∃ r, UnmarshalErrorResponse body = Except.ok r) ↔ DecodesAsErrorResponse members := by
  unfold UnmarshalErrorResponse
  rw [hj]
  unfold decodeStruct
  simp only
  have key := foldl_saved_none_iff members ⟨⟨"", ""⟩, none⟩
  cases hs : (members.foldl decodeErrorMember ⟨⟨"", ""⟩, none⟩).saved with
  | none =>
    rw [hs] at key
    simp only [true_iff, true_and] at key
    simp [key]
  | some e =>
    rw [hs] at key
    simp only [false_iff, true_and, reduceCtorEq] at key
    simp [key]

/-- The walk over the members of an object leaves in a field what its last
member for that field put there: a property `Q` that the step for a member
naming the field establishes from the value of the member, and that the steps
for the other members keep, holds at the end for the last such member. -/
theorem foldl_lastMember {σ : Type} (names : List String) (name : String)
    (step : σ → String × JValue → σ) (Q : JValue → σ → Prop)
    (hsel : ∀ st a, fieldFor names a.1 = some name → Q a.2 (step st a))
    (hkeep : ∀ st v b, fieldFor names b.1 ≠ some name → Q v st → Q v (step st b)) :
    ∀ (members : List (String × JValue)) (st : σ) (v : JValue),
      lastMember names name members = some v → Q v (members.foldl step st) := by
  intro members
  induction members using List.reverseRecOn with
  | nil => intro st v h; simp [lastMember] at h
  | append_singleton l a ih =>
    intro st v h
    rw [lastMember_snoc] at h
    rw [List.foldl_append, List.foldl_cons, List.foldl_nil]
    by_cases hf : fieldFor names a.1 = some name
    · rw [if_pos hf] at h
      cases h
      exact hsel _ a hf
    · rw [if_neg hf] at h
      exact hkeep _ v a hf (ih st v h)

/-- What one member does to the field `DataID`. -/
theorem decodeResponseMember_DataID (st : Decoding SensorDataResponse) (a : String × JValue) :
    (decodeResponseMember st a).val.DataID =
      if fieldFor sensorDataResponseFields a.1 = some "dataId" then
        (storeString st.val.DataID a.2).1
      else st.val.DataID := by
  unfold decodeResponseMember
  split <;> simp_all

/-- What one member does to the field `Automation`. -/
theorem decodeResponseMember_Automation (st : Decoding SensorDataResponse)
    (a : String × JValue) :
    (decodeResponseMember st a).val.Automation =
      if fieldFor sensorDataResponseFields a.1 = some "automation" then
        (storeAutomation st.val.Automation a.2).1
      else st.val.Automation := by
  unfold decodeResponseMember
  split <;> simp_all

/-- What one member of `automation` does to the field `RulesTriggered`. -/
theorem decodeAutomationMember_RulesTriggered (st : Decoding Automation)
    (a : String × JValue) :
    (decodeAutomationMember st a).val.RulesTriggered =
      if fieldFor automationFields a.1 = some "rulesTriggered" then
        (storeInt st.val.RulesTriggered a.2).1
      else st.val.RulesTriggered := by
  unfold decodeAutomationMember
  split <;> simp_all

/-- What one member of `automation` does to the field `ZonesCreated`. -/
theorem decodeAutomationMember_ZonesCreated (st : Decoding Automation)
    (a : String × JValue) :
    (decodeAutomationMember st a).val.ZonesCreated =
      if fieldFor automationFields a.1 = some "zonesCreated" then
        (storeStrings st.val.ZonesCreated a.2).1
      else st.val.ZonesCreated := by
  unfold decodeAutomationMember
  split <;> simp_all

/-- A decoded array has as many slots as the array has items. -/
theorem storeItems_length (items : List JValue) :
    ∀ old : List String, (storeItems old items).1.length = items.length := by
  induction items with
  | nil => intro old; rfl
  | cons v vs ih =>
    intro old
    simp only [storeItems, List.length_cons]
    rw [ih]

/-- An array of strings decodes to those strings. -/
theorem storeItems_strings (zs : List String) :
    ∀ old : List String, (storeItems old (zs.map JValue.string)).1 = zs := by
  induction zs with
  | nil => intro old; rfl
  | cons z zs ih =>
    intro old
    simp only [List.map_cons, storeItems, storeString]
    rw [ih]

/-- The fields of a decoded `automation` object that the client logs: the
`rulesTriggered` count and the `zonesCreated` list are those of its last such
members. -/
theorem foldl_decodeAutomationMember_fields (amembers : List (String × JValue))
    (st : Decoding Automation) :
    (∀ lit n, lastMember automationFields "rulesTriggered" amembers = some (JValue.number lit) →
      parseInt64 lit = some n →
      (amembers.foldl decodeAutomationMember st).val.RulesTriggered = n) ∧
    (∀ items, lastMember automationFields "zonesCreated" amembers = some (JValue.array items) →
      (amembers.foldl decodeAutomationMember st).val.ZonesCreated.length = items.length ∧
      ∀ zs, items = zs.map JValue.string →
        (amembers.foldl decodeAutomationMember st).val.ZonesCreated = zs) := by
  constructor
  · intro lit n hl hn
    refine foldl_lastMember automationFields "rulesTriggered" decodeAutomationMember
      (fun v s => v = JValue.number lit → s.val.RulesTriggered = n) ?_ ?_ amembers st _ hl rfl
    · intro s a hf hv
      rw [decodeAutomationMember_RulesTriggered, if_pos hf, hv]
      simp only [storeInt, hn]
    · intro s v b hf hq hv
      rw [decodeAutomationMember_RulesTriggered, if_neg hf]
      exact hq hv
  · intro items hl
    refine foldl_lastMember automationFields "zonesCreated" decodeAutomationMember
      (fun v s => v = JValue.array items → s.val.ZonesCreated.length = items.length ∧
        ∀ zs, items = zs.map JValue.string → s.val.ZonesCreated = zs) ?_ ?_ amembers st _ hl rfl
    · intro s a hf hv
      rw [decodeAutomationMember_ZonesCreated, if_pos hf, hv]
      simp only [storeStrings]
      refine ⟨storeItems_length items _, ?_⟩
      intro zs hz
      rw [hz]
      exact storeItems_strings zs _
    · intro s v b hf hq hv
      rw [decodeAutomationMember_ZonesCreated, if_neg hf]
      exact hq hv

/-- The fields of a decoded success body that the client logs are those the body
carries: `DataID` is the string of its last `dataId` member, and, `automation`
being its last such member, `RulesTriggered` is the integer of the last
`rulesTriggered` member in it and `ZonesCreated` has one element for each item
of the last `zonesCreated` array in it (and is that array when its items are
strings). -/
theorem UnmarshalSensorDataResponse_fields (body : String)
    (members : List (String × JValue)) (r : SensorDataResponse)
    (hj : parseJSON body = some (JValue.object members))
    (hr : UnmarshalSensorDataResponse body = Except.ok r) :
    (∀ s, lastMember sensorDataResponseFields "dataId" members = some (JValue.string s) →
      r.DataID = s) ∧
    (∀ amembers,
      lastMember sensorDataResponseFields "automation" members = some (JValue.object amembers) →
      (∀ lit n, lastMember automationFields "rulesTriggered" amembers = some (JValue.number lit) →
        parseInt64 lit = some n → r.Automation.RulesTriggered = n) ∧
      (∀ items, lastMember automationFields "zonesCreated" amembers = some (JValue.array items) →
        r.Automation.ZonesCreated.length = items.length ∧
        ∀ zs, items = zs.map JValue.string → r.Automation.ZonesCreated = zs)) := by
  unfold UnmarshalSensorDataResponse at hr
  rw [hj] at hr
  have hv := decodeStruct_object_ok _ _ members r hr
  subst hv
  constructor
  · intro s hl
    refine foldl_lastMember sensorDataResponseFields "dataId" decodeResponseMember
      (fun v st => v = JValue.string s → st.val.DataID = s) ?_ ?_ members _ _ hl rfl
    · intro st a hf hv
      rw [decodeResponseMember_DataID, if_pos hf, hv]
      rfl
    · intro st v b hf hq hv
      rw [decodeResponseMember_DataID, if_neg hf]
      exact hq hv
  · intro amembers hl
    refine foldl_lastMember sensorDataResponseFields "automation" decodeResponseMember
      (fun v st => v = JValue.object amembers →
        (∀ lit n, lastMember automationFields "rulesTriggered" amembers
            = some (JValue.number lit) →
          parseInt64 lit = some n → st.val.Automation.RulesTriggered = n) ∧
        (∀ items, lastMember automationFields "zonesCreated" amembers
            = some (JValue.array items) →
          st.val.Automation.ZonesCreated.length = items.length ∧
          ∀ zs, items = zs.map JValue.string → st.val.Automation.ZonesCreated = zs))
      ?_ ?_ members _ _ hl rfl
    · intro st a hf hv
      rw [decodeResponseMember_Automation, if_pos hf, hv]
      simp only [storeAutomation]
      exact foldl_decodeAutomationMember_fields amembers _
    · intro st v b hf hq hv
      rw [decodeResponseMember_Automation, if_neg hf]
      exact hq hv

/-- A body that is not JSON does not decode. -/
theorem UnmarshalErrorResponse_of_invalid (body : String) (hj : parseJSON body = none) :
    UnmarshalErrorResponse body = Except.error UnmarshalError.SyntaxError := by
  unfold UnmarshalErrorResponse
  rw [hj]

/-! ## The statements -/

/-- C1: in every call in which the HTTP round trip completes and the response
body is read, the returned error is nil if and only if the status code is 200,
201 or 202; the body plays no part: any other call that got the same status,
with whatever body, returns nil exactly when this one does. -/
theorem error_nil_iff_success_status (env : Env) (c : APIClient) (sensorID : String)
    (value : Float64) (timestamp : Int) (status : Int) (body : String)
    (h : Responded env c sensorID value timestamp status body) :
    ((SendSensorData env c sensorID value timestamp).err = none ↔
        (status = 200 ∨ status = 201 ∨ status = 202)) ∧
    ∀ (env2 : Env) (c2 : APIClient) (sensorID2 : String) (value2 : Float64) (timestamp2 : Int)
      (body2 : String), Responded env2 c2 sensorID2 value2 timestamp2 status body2 →
      ((SendSensorData env2 c2 sensorID2 value2 timestamp2).err = none ↔
        (SendSensorData env c sensorID value timestamp).err = none) := by
  have key : ∀ (env2 : Env) (c2 : APIClient) (sensorID2 : String) (value2 : Float64)
      (timestamp2 : Int) (body2 : String),
      Responded env2 c2 sensorID2 value2 timestamp2 status body2 →
      ((SendSensorData env2 c2 sensorID2 value2 timestamp2).err = none ↔
        (status = 200 ∨ status = 201 ∨ status = 202)) := by
    intro env2 c2 sensorID2 value2 timestamp2 body2 h2
    rw [send_of_responded env2 c2 sensorID2 value2 timestamp2 status body2 h2]
    exact handleStatus_err_none_iff sensorID2 status body2
  refine ⟨key env c sensorID value timestamp body h, ?_⟩
  intro env2 c2 sensorID2 value2 timestamp2 body2 h2
  rw [key env2 c2 sensorID2 value2 timestamp2 body2 h2, key env c sensorID value timestamp body h]

/-- Witness of C1: a `200` answer with an unparseable body still returns nil. -/
theorem error_nil_iff_success_status_witness :
    Responded (replyEnv 200 "not json") ⟨"http://api.local/data"⟩ "temp-01" f42_5 0 200
        "not json" ∧
    ((SendSensorData (replyEnv 200 "not json") ⟨"http://api.local/data"⟩ "temp-01" f42_5 0).err
        = none ↔ ((200 : Int) = 200 ∨ (200 : Int) = 201 ∨ (200 : Int) = 202)) :=
  ⟨responded_replyEnv ⟨"http://api.local/data"⟩ "temp-01" f42_5 0 200 "not json" (by decide),
    (error_nil_iff_success_status (replyEnv 200 "not json") ⟨"http://api.local/data"⟩ "temp-01"
      f42_5 0 200 "not json"
      (responded_replyEnv ⟨"http://api.local/data"⟩ "temp-01" f42_5 0 200 "not json"
        (by decide))).1⟩

/-- C3, as the specification words it, fails: for status `500` and body `oops`
the message is `unexpected status code 500: oops`, not
`unexpected status 500: oops`. -/
theorem unexpected_status_counterexample :
    Responded (replyEnv 500 "oops") ⟨"http://api.local/data"⟩ "temp-01" f42_5 0 500 "oops" ∧
    ((SendSensorData (replyEnv 500 "oops") ⟨"http://api.local/data"⟩ "temp-01" f42_5 0).err.map
        GoError.Error) = some "unexpected status code 500: oops" ∧
    ((SendSensorData (replyEnv 500 "oops") ⟨"http://api.local/data"⟩ "temp-01" f42_5 0).err.map
        GoError.Error) ≠ some ("unexpected status " ++ toString (500 : Int) ++ ": " ++ "oops") :=
  ⟨responded_replyEnv ⟨"http://api.local/data"⟩ "temp-01" f42_5 0 500 "oops" (by decide),
    by decide, by decide⟩

/-- C3, amended: for every response whose status code is none of 200, 201, 202
and 400, and for every body, the call returns a non-nil error whose message is
exactly `unexpected status code <code>: <body>`, with the status code in
decimal and the raw response body. -/
theorem unexpected_status_message (env : Env) (c : APIClient) (sensorID : String)
    (value : Float64) (timestamp : Int) (status : Int) (body : String)
    (h : Responded env c sensorID value timestamp status body)
    (h200 : status ≠ 200) (h201 : status ≠ 201) (h202 : status ≠ 202) (h400 : status ≠ 400) :
    (SendSensorData env c sensorID value timestamp).err =
        some (GoError.plain ("unexpected status code " ++ toString status ++ ": " ++ body)) ∧
    ((SendSensorData env c sensorID value timestamp).err.map GoError.Error) =
        some ("unexpected status code " ++ toString status ++ ": " ++ body) := by
  rw [send_of_responded env c sensorID value timestamp status body h]
  simp [handleStatus, StatusCreated, StatusOK, StatusAccepted, StatusBadRequest, h200, h201,
    h202, h400, GoError.Error]

/-- Witness of C3 (amended): status `503` with body `maintenance`. -/
theorem unexpected_status_message_witness :
    Responded (replyEnv 503 "maintenance") ⟨"http://api.local/data"⟩ "temp-01" f42_5 7 503
        "maintenance" ∧
    ((SendSensorData (replyEnv 503 "maintenance") ⟨"http://api.local/data"⟩ "temp-01" f42_5
        7).err.map GoError.Error) =
      some ("unexpected status code " ++ toString (503 : Int) ++ ": " ++ "maintenance") :=
  ⟨responded_replyEnv ⟨"http://api.local/data"⟩ "temp-01" f42_5 7 503 "maintenance" (by decide),
    (unexpected_status_message (replyEnv 503 "maintenance") ⟨"http://api.local/data"⟩ "temp-01"
      f42_5 7 503 "maintenance"
      (responded_replyEnv ⟨"http://api.local/data"⟩ "temp-01" f42_5 7 503 "maintenance"
        (by decide))
      (by decide) (by decide) (by decide) (by decide)).2⟩

/-- C5: for every response with status 200 or 201 whose body fails to parse as
the success schema, the call still returns nil and logs, after the debug entry
of the request, exactly one entry, the warning that reports the parse failure
with its error; so there is no info-level "processed successfully" entry, and
the only warning is the parse failure, not the threshold one. -/
theorem parse_failure_still_succeeds (env : Env) (c : APIClient) (sensorID : String)
    (value : Float64) (timestamp : Int) (status : Int) (body : String) (e : UnmarshalError)
    (h : Responded env c sensorID value timestamp status body)
    (hs : status = 200 ∨ status = 201)
    (hp : UnmarshalSensorDataResponse body = Except.error e) :
    (SendSensorData env c sensorID value timestamp).err = none ∧
    (SendSensorData env c sensorID value timestamp).logs =
      [sendingEntry c sensorID value,
        ⟨Level.Warn, "Failed to parse success response", [("error", FieldValue.error e)]⟩] ∧
    atLevel Level.Info (SendSensorData env c sensorID value timestamp).logs = [] ∧
    atLevel Level.Warn (SendSensorData env c sensorID value timestamp).logs =
      [⟨Level.Warn, "Failed to parse success response", [("error", FieldValue.error e)]⟩] ∧
    ((SendSensorData env c sensorID value timestamp).logs.filter fun x =>
      x.message == "Sensor data processed successfully"
        || x.message == "Threshold exceeded - automation triggered") = [] := by
  have hs2 : status = StatusCreated ∨ status = StatusOK := by
    rcases hs with h0 | h0
    · exact Or.inr h0
    · exact Or.inl h0
  rw [send_of_responded env c sensorID value timestamp status body h]
  have hh : handleStatus sensorID status body = (none, [parseFailureEntry e]) := by
    simp only [handleStatus, if_pos hs2, hp]
  rw [hh]
  refine ⟨rfl, rfl, ?_, ?_, ?_⟩
  · simp [atLevel, sendingEntry, parseFailureEntry]
  · simp [atLevel, sendingEntry, parseFailureEntry]
  · simp [sendingEntry, parseFailureEntry]

/-- Witness of C5: status `201` with the body `oops`, which is not JSON. -/
theorem parse_failure_still_succeeds_witness :
    (Responded (replyEnv 201 "oops") ⟨"http://api.local/data"⟩ "temp-01" f42_5 0 201 "oops" ∧
      UnmarshalSensorDataResponse "oops" = Except.error UnmarshalError.SyntaxError) ∧
    (SendSensorData (replyEnv 201 "oops") ⟨"http://api.local/data"⟩ "temp-01" f42_5 0).err
      = none :=
  ⟨⟨responded_replyEnv ⟨"http://api.local/data"⟩ "temp-01" f42_5 0 201 "oops" (by decide), rfl⟩,
    (parse_failure_still_succeeds (replyEnv 201 "oops") ⟨"http://api.local/data"⟩ "temp-01"
      f42_5 0 201 "oops" UnmarshalError.SyntaxError
      (responded_replyEnv ⟨"http://api.local/data"⟩ "temp-01" f42_5 0 201 "oops" (by decide))
      (Or.inr rfl) rfl).1⟩

/-- C9: for every response with status 200 or 201 whose body parses as the
success schema, the call logs exactly one info-level entry, "Sensor data
processed successfully", whose fields are the response's dataId, its
thresholdExceeded flag, its automation.rulesTriggered count and the number of
elements of automation.zonesCreated.  These are the values the body carries:
when the body is a JSON object whose `dataId` is the string `s`, whose
`thresholdExceeded` is the boolean `b` and whose `automation` is an object with
`rulesTriggered` the integer `n` and `zonesCreated` an array `items`, the entry
holds `s`, `b`, `n` and the length of `items`. -/
theorem processed_entry_logged (env : Env) (c : APIClient) (sensorID : String)
    (value : Float64) (timestamp : Int) (status : Int) (body : String)
    (apiResp : SensorDataResponse)
    (h : Responded env c sensorID value timestamp status body)
    (hs : status = 200 ∨ status = 201)
    (hp : UnmarshalSensorDataResponse body = Except.ok apiResp) :
    atLevel Level.Info (SendSensorData env c sensorID value timestamp).logs =
      [⟨Level.Info, "Sensor data processed successfully",
        [("data_id", FieldValue.string apiResp.DataID),
         ("threshold_exceeded", FieldValue.bool apiResp.ThresholdExceeded),
         ("rules_triggered", FieldValue.int apiResp.Automation.RulesTriggered),
         ("zones_created", FieldValue.int apiResp.Automation.ZonesCreated.length)]⟩] ∧
    (∀ (members amembers : List (String × JValue)) (s : String) (b : Bool) (lit : String)
        (n : Int) (items : List JValue),
      parseJSON body = some (JValue.object members) →
      lastMember sensorDataResponseFields "dataId" members = some (JValue.string s) →
      lastMember sensorDataResponseFields "thresholdExceeded" members = some (JValue.bool b) →
      lastMember sensorDataResponseFields "automation" members = some (JValue.object amembers) →
      lastMember automationFields "rulesTriggered" amembers = some (JValue.number lit) →
      parseInt64 lit = some n →
      lastMember automationFields "zonesCreated" amembers = some (JValue.array items) →
      atLevel Level.Info (SendSensorData env c sensorID value timestamp).logs =
        [⟨Level.Info, "Sensor data processed successfully",
          [("data_id", FieldValue.string s), ("threshold_exceeded", FieldValue.bool b),
           ("rules_triggered", FieldValue.int n),
           ("zones_created", FieldValue.int items.length)]⟩]) := by
  have hs2 : status = StatusCreated ∨ status = StatusOK := by
    rcases hs with h0 | h0
    · exact Or.inr h0
    · exact Or.inl h0
  have main : atLevel Level.Info (SendSensorData env c sensorID value timestamp).logs =
      [⟨Level.Info, "Sensor data processed successfully",
        [("data_id", FieldValue.string apiResp.DataID),
         ("threshold_exceeded", FieldValue.bool apiResp.ThresholdExceeded),
         ("rules_triggered", FieldValue.int apiResp.Automation.RulesTriggered),
         ("zones_created", FieldValue.int apiResp.Automation.ZonesCreated.length)]⟩] := by
    rw [send_of_responded env c sensorID value timestamp status body h]
    simp only [handleStatus, if_pos hs2, hp]
    by_cases ht : apiResp.ThresholdExceeded = true
    · simp [ht, atLevel, sendingEntry, processedEntry, thresholdEntry]
    · simp [ht, atLevel, sendingEntry, processedEntry]
  refine ⟨main, ?_⟩
  intro members amembers s b lit n items hj hd ht ha hr hn hz
  obtain ⟨hD, hA⟩ := UnmarshalSensorDataResponse_fields body members apiResp hj hp
  obtain ⟨hR, hZ⟩ := hA amembers ha
  have hT := UnmarshalSensorDataResponse_threshold body members apiResp b hj hp ht
  rw [main, hD s hd, hT, hR lit n hr hn, (hZ items hz).1]

set_option maxRecDepth 100000 in
/-- Witness of C9: the `201` body of the end-to-end scenario gives one info
entry, with `data_id` `abc` and `zones_created` 0, and no warning; a body with
two rules triggered and three zones gives the entry with `xyz`, `true`, 2 and
3. -/
theorem processed_entry_logged_witness :
    (Responded (replyEnv 201 scenarioBody) ⟨"http://api.local/data"⟩ "temp-01" f42_5 0 201
        scenarioBody ∧
      UnmarshalSensorDataResponse scenarioBody = Except.ok ⟨true, "abc", false, ⟨3, 0, [], ""⟩⟩) ∧
    atLevel Level.Info
        (SendSensorData (replyEnv 201 scenarioBody) ⟨"http://api.local/data"⟩ "temp-01" f42_5
          0).logs =
      [⟨Level.Info, "Sensor data processed successfully",
        [("data_id", FieldValue.string "abc"), ("threshold_exceeded", FieldValue.bool false),
         ("rules_triggered", FieldValue.int 0), ("zones_created", FieldValue.int 0)]⟩] ∧
    atLevel Level.Warn
        (SendSensorData (replyEnv 201 scenarioBody) ⟨"http://api.local/data"⟩ "temp-01" f42_5
          0).logs = [] ∧
    (Responded (replyEnv 200 busyBody) ⟨"http://api.local/data"⟩ "temp-01" f42_5 0 200
        busyBody ∧
      UnmarshalSensorDataResponse busyBody =
        Except.ok ⟨true, "xyz", true, ⟨5, 2, ["zone-A", "zone-B", "zone-C"], "ok"⟩⟩ ∧
      parseJSON busyBody = some (JValue.object
        [("success", JValue.bool true), ("dataId", JValue.string "xyz"),
         ("thresholdExceeded", JValue.bool true),
         ("automation", JValue.object
           [("rulesChecked", JValue.number "5"), ("rulesTriggered", JValue.number "2"),
            ("zonesCreated", JValue.array
              [JValue.string "zone-A", JValue.string "zone-B", JValue.string "zone-C"]),
            ("message", JValue.string "ok")])])) ∧
    atLevel Level.Info
        (SendSensorData (replyEnv 200 busyBody) ⟨"http://api.local/data"⟩ "temp-01" f42_5
          0).logs =
      [⟨Level.Info, "Sensor data processed successfully",
        [("data_id", FieldValue.string "xyz"), ("threshold_exceeded", FieldValue.bool true),
         ("rules_triggered", FieldValue.int 2), ("zones_created", FieldValue.int 3)]⟩] :=
  ⟨⟨responded_replyEnv ⟨"http://api.local/data"⟩ "temp-01" f42_5 0 201 scenarioBody (by decide),
      by rfl⟩,
    (processed_entry_logged (replyEnv 201 scenarioBody) ⟨"http://api.local/data"⟩ "temp-01"
      f42_5 0 201 scenarioBody ⟨true, "abc", false, ⟨3, 0, [], ""⟩⟩
      (responded_replyEnv ⟨"http://api.local/data"⟩ "temp-01" f42_5 0 201 scenarioBody
        (by decide))
      (Or.inr rfl) (by rfl)).1,
    by decide,
    ⟨responded_replyEnv ⟨"http://api.local/data"⟩ "temp-01" f42_5 0 200 busyBody (by decide),
      by rfl, by rfl⟩,
    (processed_entry_logged (replyEnv 200 busyBody) ⟨"http://api.local/data"⟩ "temp-01"
      f42_5 0 200 busyBody ⟨true, "xyz", true, ⟨5, 2, ["zone-A", "zone-B", "zone-C"], "ok"⟩⟩
      (responded_replyEnv ⟨"http://api.local/data"⟩ "temp-01" f42_5 0 200 busyBody
        (by decide))
      (Or.inl rfl) (by rfl)).2
      [("success", JValue.bool true), ("dataId", JValue.string "xyz"),
       ("thresholdExceeded", JValue.bool true),
       ("automation", JValue.object
         [("rulesChecked", JValue.number "5"), ("rulesTriggered", JValue.number "2"),
          ("zonesCreated", JValue.array
            [JValue.string "zone-A", JValue.string "zone-B", JValue.string "zone-C"]),
          ("message", JValue.string "ok")])]
      [("rulesChecked", JValue.number "5"), ("rulesTriggered", JValue.number "2"),
       ("zonesCreated", JValue.array
         [JValue.string "zone-A", JValue.string "zone-B", JValue.string "zone-C"]),
       ("message", JValue.string "ok")]
      "xyz" true "2" 2
      [JValue.string "zone-A", JValue.string "zone-B", JValue.string "zone-C"]
      (by rfl) (by rfl) (by rfl) (by rfl) (by rfl) (by rfl) (by rfl)⟩

/-- C10: for every call whose value is not finite (NaN, +Inf or -Inf),
serialising the request fails, the call returns a non-nil error that wraps the
marshalling error, no HTTP request is issued and no log entry is emitted. -/
theorem non_finite_never_sent (env : Env) (c : APIClient) (sensorID : String)
    (value : Float64) (timestamp : Int) (h : value.IsNaN = true ∨ value.IsInf = true) :
    (∃ e, Marshal ⟨sensorID, value, timestamp⟩ = Except.error e ∧
      (SendSensorData env c sensorID value timestamp).err =
        some (GoError.wrap "failed to marshal request: " e)) ∧
    (SendSensorData env c sensorID value timestamp).requests = [] ∧
    (SendSensorData env c sensorID value timestamp).logs = [] := by
  have hv : (value.IsInf || value.IsNaN) = true := by
    rcases h with h | h <;> simp [h]
  have hf : value.IsFinite = false := by simp [Float64.IsFinite, hv]
  rw [send_of_not_finite env c sensorID value timestamp hf]
  refine ⟨⟨_, ?_, rfl⟩, rfl, rfl⟩
  simp only [Marshal, hv, if_true]

/-- Witness of C10: the value `+Inf`. -/
theorem non_finite_never_sent_witness :
    (fPosInf.IsNaN = true ∨ fPosInf.IsInf = true) ∧
    (SendSensorData (replyEnv 201 scenarioBody) ⟨"http://api.local/data"⟩ "temp-01" fPosInf
        0).requests = [] ∧
    (SendSensorData (replyEnv 201 scenarioBody) ⟨"http://api.local/data"⟩ "temp-01" fPosInf
        0).logs = [] :=
  ⟨Or.inr (by decide),
    (non_finite_never_sent (replyEnv 201 scenarioBody) ⟨"http://api.local/data"⟩ "temp-01"
      fPosInf 0 (Or.inr (by decide))).2⟩

set_option maxRecDepth 100000 in
/-- C7, as stated, fails: the client is `http.Client` with its default redirect
policy, so one call can issue more than one HTTP request.  When the first
request is answered by a 307 with a location and the second fails at transport
level, the call returns the error wrapping that cause, and it has issued two
POST requests, not one; when the second is answered by 201, the call returns
nil, and it has issued two POST requests as well. -/
theorem transport_failure_counterexample :
    ((SendSensorData (clientEnv (fun _ => none) redirectThenReset) ⟨"http://api.local/data"⟩
        "temp-01" f42_5 0).err =
      some (GoError.wrap "failed to send request: "
        (GoError.wrap "Post \"http://api.local/v2/data\": "
          (GoError.plain "read tcp: connection reset by peer"))) ∧
    wireRequests redirectThenReset
        (SendSensorData (clientEnv (fun _ => none) redirectThenReset)
          ⟨"http://api.local/data"⟩ "temp-01" f42_5 0) =
      [⟨"POST", "http://api.local/data"⟩, ⟨"POST", "http://api.local/v2/data"⟩] ∧
    ¬ (wireRequests redirectThenReset
        (SendSensorData (clientEnv (fun _ => none) redirectThenReset)
          ⟨"http://api.local/data"⟩ "temp-01" f42_5 0)).length ≤ 1) ∧
    ((SendSensorData (clientEnv (fun _ => none) redirectThenCreated)
        ⟨"http://api.local/data"⟩ "temp-01" f42_5 0).err = none ∧
    wireRequests redirectThenCreated
        (SendSensorData (clientEnv (fun _ => none) redirectThenCreated)
          ⟨"http://api.local/data"⟩ "temp-01" f42_5 0) =
      [⟨"POST", "http://api.local/data"⟩, ⟨"POST", "http://api.local/v2/data"⟩]) := by
  refine ⟨⟨?_, ?_, ?_⟩, ?_, ?_⟩ <;> decide

/-- C7, amended: in every call `SendSensorData` hands at most one request to the
HTTP client, and when `httpClient.Do` fails on it with cause `cause` (or the
body cannot be read), the call returns the non-nil error
`failed to send request: ` (or `failed to read response: `) wrapping `cause`,
having handed over exactly that one request: the client code makes no second
attempt.  On the wire, with the default `http.Client` over any transport: a
call issues at most ten HTTP requests; when its first request fails at
transport level with cause `cause`, the call returns a non-nil error that
wraps `cause` and has issued exactly one HTTP request; and when the first
response asks for no redirect, exactly one request has been issued as well. -/
theorem transport_failure_wrapped_once (env : Env) (c : APIClient) (sensorID : String)
    (value : Float64) (timestamp : Int) :
    (SendSensorData env c sensorID value timestamp).requests.length ≤ 1 ∧
    (∀ (req : HttpRequest) (cause : GoError),
      req ∈ (SendSensorData env c sensorID value timestamp).requests →
      env.Do req = Except.error cause →
      (SendSensorData env c sensorID value timestamp).err =
          some (GoError.wrap "failed to send request: " cause) ∧
      (∃ e, (SendSensorData env c sensorID value timestamp).err = some e ∧
          e.Unwrap = some cause ∧ e.Error = "failed to send request: " ++ cause.Error) ∧
      (SendSensorData env c sensorID value timestamp).requests = [req]) ∧
    (∀ (req : HttpRequest) (resp : HttpResponse) (cause : GoError),
      req ∈ (SendSensorData env c sensorID value timestamp).requests →
      env.Do req = Except.ok resp → resp.Body = Except.error cause →
      (SendSensorData env c sensorID value timestamp).err =
          some (GoError.wrap "failed to read response: " cause) ∧
      (SendSensorData env c sensorID value timestamp).requests = [req]) ∧
    (∀ (parseURL : String → Option GoError) (t : Transport),
      (wireRequests t
        (SendSensorData (clientEnv parseURL t) c sensorID value timestamp)).length ≤ 10 ∧
      (value.IsFinite = true → parseURL c.endpoint = none →
        (∀ cause : GoError, t.RoundTrip 0 "POST" c.endpoint = Except.error cause →
          (SendSensorData (clientEnv parseURL t) c sensorID value timestamp).err =
            some (GoError.wrap "failed to send request: "
              (urlError "Post" c.endpoint cause)) ∧
          (∃ e, (SendSensorData (clientEnv parseURL t) c sensorID value timestamp).err =
            some e ∧ cause ∈ e.chain) ∧
          wireRequests t (SendSensorData (clientEnv parseURL t) c sensorID value timestamp) =
            [⟨"POST", c.endpoint⟩]) ∧
        (∀ resp : WireResponse, t.RoundTrip 0 "POST" c.endpoint = Except.ok resp →
          (redirectBehavior "POST" resp.StatusCode = none ∨ resp.Location = none) →
          wireRequests t (SendSensorData (clientEnv parseURL t) c sensorID value timestamp) =
            [⟨"POST", c.endpoint⟩]))) := by
  refine ⟨?_, ?_, ?_, ?_⟩
  · rcases requests_cases env c sensorID value timestamp with h0 | ⟨_, _, hb⟩
    · rw [h0]; simp
    · rw [hb]; simp
  · intro req cause hmem hdo
    rcases requests_cases env c sensorID value timestamp with h0 | ⟨hfin, hu, hb⟩
    · rw [h0] at hmem; cases hmem
    · rw [hb] at hmem
      have hr : req = builtRequest c sensorID value timestamp := by simpa using hmem
      subst hr
      rw [send_of_built env c sensorID value timestamp hfin hu, hdo]
      exact ⟨rfl, ⟨_, rfl, rfl, rfl⟩, rfl⟩
  · intro req resp cause hmem hdo hbody
    rcases requests_cases env c sensorID value timestamp with h0 | ⟨hfin, hu, hb⟩
    · rw [h0] at hmem; cases hmem
    · rw [hb] at hmem
      have hr : req = builtRequest c sensorID value timestamp := by simpa using hmem
      subst hr
      rw [send_of_built env c sensorID value timestamp hfin hu, hdo]
      simp [hbody]
  · intro parseURL t
    constructor
    · rcases requests_cases (clientEnv parseURL t) c sensorID value timestamp with
        h0 | ⟨hfin, hu, _⟩
      · unfold wireRequests
        rw [h0]
        simp
      · rw [wireRequests_of_built parseURL t c sensorID value timestamp hfin hu]
        exact clientSend_length t "Post" 9 0 "POST" c.endpoint
    · intro hfin hu
      have hdo : (clientEnv parseURL t).Do (builtRequest c sensorID value timestamp) =
          (clientSend t "Post" 9 0 "POST" c.endpoint).1 := rfl
      constructor
      · intro cause hrt
        have hs := clientSend_of_error t "Post" 9 0 "POST" c.endpoint cause hrt
        rw [wireRequests_of_built parseURL t c sensorID value timestamp hfin hu,
          send_of_built (clientEnv parseURL t) c sensorID value timestamp hfin hu, hdo, hs]
        refine ⟨rfl, ⟨_, rfl, ?_⟩, rfl⟩
        simp [GoError.chain, urlError]
        cases cause <;> simp [GoError.chain]
      · intro resp hrt hfinal
        rw [wireRequests_of_built parseURL t c sensorID value timestamp hfin hu,
          clientSend_of_final t "Post" 9 0 "POST" c.endpoint resp hrt hfinal]

/-- Witness of C7 (amended): every connection is refused. -/
theorem transport_failure_wrapped_once_witness :
    (f42_5.IsFinite = true ∧
      refuseAll.RoundTrip 0 "POST" "http://api.local/data" =
        Except.error (GoError.plain "dial tcp: connection refused")) ∧
    (SendSensorData (clientEnv (fun _ => none) refuseAll) ⟨"http://api.local/data"⟩ "temp-01"
        f42_5 0).err =
      some (GoError.wrap "failed to send request: "
        (GoError.wrap "Post \"http://api.local/data\": "
          (GoError.plain "dial tcp: connection refused"))) ∧
    wireRequests refuseAll
        (SendSensorData (clientEnv (fun _ => none) refuseAll) ⟨"http://api.local/data"⟩
          "temp-01" f42_5 0) =
      [⟨"POST", "http://api.local/data"⟩] ∧
    (SendSensorData (failEnv (GoError.plain "dial tcp: connection refused"))
        ⟨"http://api.local/data"⟩ "temp-01" f42_5 0).requests =
      [builtRequest ⟨"http://api.local/data"⟩ "temp-01" f42_5 0] :=
  ⟨⟨by decide, rfl⟩,
    ((((transport_failure_wrapped_once (clientEnv (fun _ => none) refuseAll)
      ⟨"http://api.local/data"⟩ "temp-01" f42_5 0).2.2.2 (fun _ => none) refuseAll).2
      (by decide) rfl).1 (GoError.plain "dial tcp: connection refused") rfl).1,
    ((((transport_failure_wrapped_once (clientEnv (fun _ => none) refuseAll)
      ⟨"http://api.local/data"⟩ "temp-01" f42_5 0).2.2.2 (fun _ => none) refuseAll).2
      (by decide) rfl).1 (GoError.plain "dial tcp: connection refused") rfl).2.2,
    ((transport_failure_wrapped_once (failEnv (GoError.plain "dial tcp: connection refused"))
      ⟨"http://api.local/data"⟩ "temp-01" f42_5 0).2.1
      (builtRequest ⟨"http://api.local/data"⟩ "temp-01" f42_5 0)
      (GoError.plain "dial tcp: connection refused") (by decide) rfl).2.2⟩

/-- C6: for every sensor ID, finite value and timestamp, a request the call
issues is a POST to the configured endpoint with the single header
`Content-Type: application/json`, whose body is the JSON object with the key
`sensorId` holding the sensor ID, the key `value` holding the value, then the key
`timestamp` holding the timestamp exactly when the timestamp is not zero, and
no other key; and the call issues exactly one such request whenever the
endpoint is a URL that `http.NewRequest` accepts. -/
theorem request_shape (env : Env) (c : APIClient) (sensorID : String) (value : Float64)
    (timestamp : Int) (h : value.IsFinite = true) :
    (∀ req ∈ (SendSensorData env c sensorID value timestamp).requests,
      req.Method = "POST" ∧ req.URL = c.endpoint ∧
      req.Header = [("Content-Type", "application/json")] ∧
      req.Body = [("sensorId", Encoded.string sensorID), ("value", Encoded.float value)]
        ++ (if timestamp = 0 then [] else [("timestamp", Encoded.int timestamp)]) ∧
      (timestamp = 0 → req.Body.map Prod.fst = ["sensorId", "value"]) ∧
      (timestamp ≠ 0 → req.Body.map Prod.fst = ["sensorId", "value", "timestamp"] ∧
        req.Body.lookup "timestamp" = some (Encoded.int timestamp))) ∧
    (env.parseURL c.endpoint = none →
      ∃ req, (SendSensorData env c sensorID value timestamp).requests = [req]) := by
  constructor
  · intro req hmem
    rcases requests_cases env c sensorID value timestamp with h0 | ⟨_, _, hb⟩
    · rw [h0] at hmem; cases hmem
    · rw [hb] at hmem
      have hr : req = builtRequest c sensorID value timestamp := by simpa using hmem
      subst hr
      refine ⟨rfl, rfl, rfl, rfl, ?_, ?_⟩
      · intro ht; simp [builtRequest, ht]
      · intro ht; simp [builtRequest, ht, List.lookup]
  · intro hu
    rcases requests_cases env c sensorID value timestamp with h0 | ⟨_, _, hb⟩
    · exfalso
      rw [send_of_built env c sensorID value timestamp h hu] at h0
      cases hd : env.Do (builtRequest c sensorID value timestamp) with
      | error e => rw [hd] at h0; cases h0
      | ok resp =>
        rw [hd] at h0
        cases hb : resp.Body with
        | error e => simp [hb] at h0
        | ok b => simp [hb] at h0
    · exact ⟨_, hb⟩

/-- Witness of C6: the reading `temp-01`, 42.5, at time 1700000000. -/
theorem request_shape_witness :
    f42_5.IsFinite = true ∧
    (SendSensorData (replyEnv 201 scenarioBody) ⟨"http://api.local/data"⟩ "temp-01" f42_5
        1700000000).requests =
      [⟨"POST", "http://api.local/data", [("Content-Type", "application/json")],
        [("sensorId", Encoded.string "temp-01"), ("value", Encoded.float f42_5),
         ("timestamp", Encoded.int 1700000000)]⟩] ∧
    (∀ req ∈ (SendSensorData (replyEnv 201 scenarioBody) ⟨"http://api.local/data"⟩ "temp-01"
        f42_5 1700000000).requests, req.Method = "POST") :=
  ⟨by decide, by decide,
    fun req hmem =>
      ((request_shape (replyEnv 201 scenarioBody) ⟨"http://api.local/data"⟩ "temp-01" f42_5
        1700000000 (by decide)).1 req hmem).1⟩

/-- C2, as stated, fails: the `400` body `{"error":"bad value","warning":5}` is a
JSON object whose `error` field is the string `bad value`, yet it does not
decode into `ErrorResponse` (its `warning` is a number), so the message is
`bad request: ` followed by the raw body, not by `bad value`. -/
theorem bad_request_counterexample :
    Responded (replyEnv 400 mistypedWarningBody) ⟨"http://api.local/data"⟩ "temp-01" f42_5 0
        400 mistypedWarningBody ∧
    parseJSON mistypedWarningBody =
        some (JValue.object
          [("error", JValue.string "bad value"), ("warning", JValue.number "5")]) ∧
    lastMember errorResponseFields "error"
        [("error", JValue.string "bad value"), ("warning", JValue.number "5")] =
      some (JValue.string "bad value") ∧
    ((SendSensorData (replyEnv 400 mistypedWarningBody) ⟨"http://api.local/data"⟩ "temp-01"
        f42_5 0).err.map GoError.Error) = some ("bad request: " ++ mistypedWarningBody) ∧
    ((SendSensorData (replyEnv 400 mistypedWarningBody) ⟨"http://api.local/data"⟩ "temp-01"
        f42_5 0).err.map GoError.Error) ≠ some ("bad request: " ++ "bad value") :=
  ⟨responded_replyEnv ⟨"http://api.local/data"⟩ "temp-01" f42_5 0 400 mistypedWarningBody
      (by decide),
    by rfl, by rfl, by decide, by decide⟩

/-- C2, amended: for every response with status 400 the call returns a non-nil
error whose message starts with `bad request: `; when the body is a JSON
object whose `error` field is the string `e` and which decodes into
`ErrorResponse` (every member naming one of its fields holds a string or
null), the message is `bad request: ` followed by `e`; when the body is not
valid JSON, or does not decode, the message is `bad request: ` followed by the
raw body. -/
theorem bad_request_message (env : Env) (c : APIClient) (sensorID : String)
    (value : Float64) (timestamp : Int) (body : String)
    (h : Responded env c sensorID value timestamp 400 body) :
    (∃ detail, (SendSensorData env c sensorID value timestamp).err =
        some (GoError.plain ("bad request: " ++ detail))) ∧
    (∀ (members : List (String × JValue)) (e : String),
      parseJSON body = some (JValue.object members) →
      lastMember errorResponseFields "error" members = some (JValue.string e) →
      DecodesAsErrorResponse members →
      ((SendSensorData env c sensorID value timestamp).err.map GoError.Error) =
        some ("bad request: " ++ e)) ∧
    (parseJSON body = none →
      ((SendSensorData env c sensorID value timestamp).err.map GoError.Error) =
        some ("bad request: " ++ body)) ∧
    (∀ err, UnmarshalErrorResponse body = Except.error err →
      ((SendSensorData env c sensorID value timestamp).err.map GoError.Error) =
        some ("bad request: " ++ body)) := by
  rw [send_of_responded env c sensorID value timestamp 400 body h]
  have hh : handleStatus sensorID 400 body =
      match UnmarshalErrorResponse body with
      | Except.ok errResp => (some (GoError.plain ("bad request: " ++ errResp.Error)), [])
      | Except.error _ => (some (GoError.plain ("bad request: " ++ body)), []) := by
    simp [handleStatus, StatusCreated, StatusOK, StatusAccepted, StatusBadRequest]
  rw [hh]
  have hfail : ∀ err, UnmarshalErrorResponse body = Except.error err →
      (Option.map GoError.Error
        (match UnmarshalErrorResponse body with
          | Except.ok errResp =>
            ((some (GoError.plain ("bad request: " ++ errResp.Error)), []) :
              Option GoError × List Entry)
          | Except.error _ => (some (GoError.plain ("bad request: " ++ body)), [])).1) =
        some ("bad request: " ++ body) := by
    intro err he
    rw [he]
    rfl
  refine ⟨?_, ?_, ?_, hfail⟩
  · cases UnmarshalErrorResponse body with
    | ok r => exact ⟨_, rfl⟩
    | error e => exact ⟨_, rfl⟩
  · intro members e hj hl hd
    obtain ⟨errResp, hr⟩ := (UnmarshalErrorResponse_ok_iff body members hj).2 hd
    have he := (UnmarshalErrorResponse_fields body members errResp hj hr).1 e hl
    rw [hr, ← he]
    rfl
  · intro hj
    exact hfail _ (UnmarshalErrorResponse_of_invalid body hj)

/-- Witness of C2 (amended): the body `{"error":"bad value"}` gives the message
`bad request: bad value`. -/
theorem bad_request_message_witness :
    (Responded (replyEnv 400 badValueBody) ⟨"http://api.local/data"⟩ "temp-01" f42_5 0 400
        badValueBody ∧
      parseJSON badValueBody = some (JValue.object [("error", JValue.string "bad value")]) ∧
      lastMember errorResponseFields "error" [("error", JValue.string "bad value")] =
        some (JValue.string "bad value") ∧
      DecodesAsErrorResponse [("error", JValue.string "bad value")]) ∧
    ((SendSensorData (replyEnv 400 badValueBody) ⟨"http://api.local/data"⟩ "temp-01" f42_5
        0).err.map GoError.Error) = some ("bad request: " ++ "bad value") :=
  ⟨⟨responded_replyEnv ⟨"http://api.local/data"⟩ "temp-01" f42_5 0 400 badValueBody (by decide),
      by rfl, by rfl, by decide⟩,
    (bad_request_message (replyEnv 400 badValueBody) ⟨"http://api.local/data"⟩ "temp-01" f42_5
      0 badValueBody
      (responded_replyEnv ⟨"http://api.local/data"⟩ "temp-01" f42_5 0 400 badValueBody
        (by decide))).2.1
      [("error", JValue.string "bad value")] "bad value"
      (by rfl) (by rfl) (by decide)⟩

/-- C8, as stated, fails: the `202` body `{"warning":"sensor offline","error":5}`
is a JSON object whose `warning` field is the string `sensor offline`, yet it
does not decode into `ErrorResponse` (its `error` is a number), so the call
logs nothing but the debug entry of the request: no warning-level entry. -/
theorem accepted_warning_counterexample :
    Responded (replyEnv 202 mistypedErrorBody) ⟨"http://api.local/data"⟩ "temp-01" f42_5 0
        202 mistypedErrorBody ∧
    parseJSON mistypedErrorBody =
        some (JValue.object
          [("warning", JValue.string "sensor offline"), ("error", JValue.number "5")]) ∧
    lastMember errorResponseFields "warning"
        [("warning", JValue.string "sensor offline"), ("error", JValue.number "5")] =
      some (JValue.string "sensor offline") ∧
    (SendSensorData (replyEnv 202 mistypedErrorBody) ⟨"http://api.local/data"⟩ "temp-01"
        f42_5 0).logs = [sendingEntry ⟨"http://api.local/data"⟩ "temp-01" f42_5] ∧
    atLevel Level.Warn
        (SendSensorData (replyEnv 202 mistypedErrorBody) ⟨"http://api.local/data"⟩ "temp-01"
          f42_5 0).logs = [] :=
  ⟨responded_replyEnv ⟨"http://api.local/data"⟩ "temp-01" f42_5 0 202 mistypedErrorBody
      (by decide),
    by rfl, by rfl, by decide, by decide⟩

/-- C8, amended: for every response with status 202 the call returns nil; when
the body is a JSON object whose `warning` field is the string `w` and which
decodes into `ErrorResponse` (every member naming one of its fields holds a
string or null), the call logs, after the debug entry of the
request, exactly one entry, the warning `API warning` carrying `w`; when the
body does not decode, it logs nothing for the response. -/
theorem accepted_warning (env : Env) (c : APIClient) (sensorID : String)
    (value : Float64) (timestamp : Int) (body : String)
    (h : Responded env c sensorID value timestamp 202 body) :
    (SendSensorData env c sensorID value timestamp).err = none ∧
    (∀ (members : List (String × JValue)) (w : String),
      parseJSON body = some (JValue.object members) →
      lastMember errorResponseFields "warning" members = some (JValue.string w) →
      DecodesAsErrorResponse members →
      (SendSensorData env c sensorID value timestamp).logs =
        [sendingEntry c sensorID value,
          ⟨Level.Warn, "API warning", [("warning", FieldValue.string w)]⟩] ∧
      atLevel Level.Warn (SendSensorData env c sensorID value timestamp).logs =
        [⟨Level.Warn, "API warning", [("warning", FieldValue.string w)]⟩]) ∧
    (∀ err, UnmarshalErrorResponse body = Except.error err →
      (SendSensorData env c sensorID value timestamp).logs = [sendingEntry c sensorID value]) := by
  rw [send_of_responded env c sensorID value timestamp 202 body h]
  have hh : handleStatus sensorID 202 body =
      match UnmarshalErrorResponse body with
      | Except.ok errResp => (none, [apiWarningEntry errResp])
      | Except.error _ => (none, []) := by
    simp [handleStatus, StatusCreated, StatusOK, StatusAccepted]
  rw [hh]
  refine ⟨?_, ?_, ?_⟩
  · cases UnmarshalErrorResponse body <;> rfl
  · intro members w hj hl hd
    obtain ⟨errResp, hr⟩ := (UnmarshalErrorResponse_ok_iff body members hj).2 hd
    have hw := (UnmarshalErrorResponse_fields body members errResp hj hr).2 w hl
    rw [hr, ← hw]
    refine ⟨rfl, ?_⟩
    simp [atLevel, sendingEntry, apiWarningEntry]
  · intro err he
    rw [he]

/-- Witness of C8 (amended): the body `{"warning":"sensor offline"}`. -/
theorem accepted_warning_witness :
    (Responded (replyEnv 202 offlineWarningBody) ⟨"http://api.local/data"⟩ "temp-01" f42_5 0
        202 offlineWarningBody ∧
      parseJSON offlineWarningBody =
        some (JValue.object [("warning", JValue.string "sensor offline")]) ∧
      lastMember errorResponseFields "warning" [("warning", JValue.string "sensor offline")] =
        some (JValue.string "sensor offline") ∧
      DecodesAsErrorResponse [("warning", JValue.string "sensor offline")]) ∧
    atLevel Level.Warn
        (SendSensorData (replyEnv 202 offlineWarningBody) ⟨"http://api.local/data"⟩ "temp-01"
          f42_5 0).logs =
      [⟨Level.Warn, "API warning", [("warning", FieldValue.string "sensor offline")]⟩] :=
  ⟨⟨responded_replyEnv ⟨"http://api.local/data"⟩ "temp-01" f42_5 0 202 offlineWarningBody
        (by decide),
      by rfl, by rfl, by decide⟩,
    ((accepted_warning (replyEnv 202 offlineWarningBody) ⟨"http://api.local/data"⟩ "temp-01"
      f42_5 0 offlineWarningBody
      (responded_replyEnv ⟨"http://api.local/data"⟩ "temp-01" f42_5 0 202 offlineWarningBody
        (by decide))).2.1
      [("warning", JValue.string "sensor offline")] "sensor offline"
      (by rfl) (by rfl) (by decide)).2⟩

/-- C4, as stated, fails: the `201` body `{"thresholdExceeded":false,"dataId":7}`
carries a `thresholdExceeded` field that is false, yet the call logs a
warning-level entry, the one that reports that the body did not parse. -/
theorem threshold_warning_counterexample :
    Responded (replyEnv 201 mistypedDataIdBody) ⟨"http://api.local/data"⟩ "temp-01" f42_5 0
        201 mistypedDataIdBody ∧
    parseJSON mistypedDataIdBody =
        some (JValue.object
          [("thresholdExceeded", JValue.bool false), ("dataId", JValue.number "7")]) ∧
    atLevel Level.Warn
        (SendSensorData (replyEnv 201 mistypedDataIdBody) ⟨"http://api.local/data"⟩ "temp-01"
          f42_5 0).logs =
      [⟨Level.Warn, "Failed to parse success response",
        [("error", FieldValue.error (UnmarshalError.UnmarshalTypeError "number"))]⟩] ∧
    atLevel Level.Warn
        (SendSensorData (replyEnv 201 mistypedDataIdBody) ⟨"http://api.local/data"⟩ "temp-01"
          f42_5 0).logs ≠ [] :=
  ⟨responded_replyEnv ⟨"http://api.local/data"⟩ "temp-01" f42_5 0 201 mistypedDataIdBody
      (by decide),
    by rfl, by decide, by decide⟩

/-- C4, amended: for every response with status 200 or 201 whose body parses as
the success schema: when its thresholdExceeded is true, the call logs exactly
one warning-level entry, and that entry carries the sensor ID passed to the
call and the zonesCreated list of the response; when it is false, the call
logs no warning-level entry at all.  The flag is the one the body carries: when
the body is a JSON object whose `thresholdExceeded` field is the boolean `b`,
the decoded flag is `b`. -/
theorem threshold_warning (env : Env) (c : APIClient) (sensorID : String)
    (value : Float64) (timestamp : Int) (status : Int) (body : String)
    (apiResp : SensorDataResponse)
    (h : Responded env c sensorID value timestamp status body)
    (hs : status = 200 ∨ status = 201)
    (hp : UnmarshalSensorDataResponse body = Except.ok apiResp) :
    (apiResp.ThresholdExceeded = true →
      atLevel Level.Warn (SendSensorData env c sensorID value timestamp).logs =
        [⟨Level.Warn, "Threshold exceeded - automation triggered",
          [("sensor_id", FieldValue.string sensorID),
           ("zones_created", FieldValue.strings apiResp.Automation.ZonesCreated)]⟩]) ∧
    (apiResp.ThresholdExceeded = false →
      atLevel Level.Warn (SendSensorData env c sensorID value timestamp).logs = []) ∧
    (∀ (members : List (String × JValue)) (b : Bool),
      parseJSON body = some (JValue.object members) →
      lastMember sensorDataResponseFields "thresholdExceeded" members = some (JValue.bool b) →
      apiResp.ThresholdExceeded = b) := by
  have hs2 : status = StatusCreated ∨ status = StatusOK := by
    rcases hs with h0 | h0
    · exact Or.inr h0
    · exact Or.inl h0
  rw [send_of_responded env c sensorID value timestamp status body h]
  simp only [handleStatus, if_pos hs2, hp]
  refine ⟨?_, ?_, ?_⟩
  · intro ht
    simp [ht, atLevel, sendingEntry, processedEntry, thresholdEntry]
  · intro ht
    simp [ht, atLevel, sendingEntry, processedEntry]
  · intro members b hj hl
    exact UnmarshalSensorDataResponse_threshold body members apiResp b hj hp hl

set_option maxRecDepth 100000 in
/-- Witness of C4 (amended): the `201` body of the threshold scenario gives one
warning, naming the sensor and `zone-A`. -/
theorem threshold_warning_witness :
    (Responded (replyEnv 201 thresholdBody) ⟨"http://api.local/data"⟩ "temp-01" f42_5 0 201
        thresholdBody ∧
      UnmarshalSensorDataResponse thresholdBody =
        Except.ok ⟨true, "abc", true, ⟨3, 1, ["zone-A"], ""⟩⟩) ∧
    atLevel Level.Warn
        (SendSensorData (replyEnv 201 thresholdBody) ⟨"http://api.local/data"⟩ "temp-01" f42_5
          0).logs =
      [⟨Level.Warn, "Threshold exceeded - automation triggered",
        [("sensor_id", FieldValue.string "temp-01"),
         ("zones_created", FieldValue.strings ["zone-A"])]⟩] :=
  ⟨⟨responded_replyEnv ⟨"http://api.local/data"⟩ "temp-01" f42_5 0 201 thresholdBody
        (by decide),
      by rfl⟩,
    (threshold_warning (replyEnv 201 thresholdBody) ⟨"http://api.local/data"⟩ "temp-01" f42_5 0
      201 thresholdBody ⟨true, "abc", true, ⟨3, 1, ["zone-A"], ""⟩⟩
      (responded_replyEnv ⟨"http://api.local/data"⟩ "temp-01" f42_5 0 201 thresholdBody
        (by decide))
      (Or.inr rfl) (by rfl)).1 rfl⟩

end Bridge
